import Mathlib

/-!
Verification development for the `rip-rs` crate: a pure codec between raw
byte buffers and structured RIP (v1/v2) routing packets.  Byte buffers are
modelled as `List Nat` (each element a `u8` value), cursors as `Nat`, and
every fallible Rust function returning `Result` is embedded as an `Except`
valued Lean function.  Definitions mirror the Rust modules one by one:
`byte_reader`, `zero_bytes`, `version`, `command`, `address_family`,
`ipv4`, `metric`, `route_tag`, `header`, `v1`, `v2`, `packet`,
`serializer`, `parser`.
-/

namespace Rip

/-- Embeds `packet::PacketError`. -/
inductive PacketError where
  | VersionInHeaderConflicted
  | MaxRIPEntriesNumberExceeded
deriving DecidableEq

/-- Embeds `parser::ParseError` (the current-revision error taxonomy in
`src/parser.rs`, which carries an `InvalidPacket` wrapper). -/
inductive ParseError where
  | InsufficientInputBytesLength : Nat → ParseError
  | UnknownCommandKind : Nat → Nat → ParseError
  | UnknownVersion : Nat → ParseError
  | MustBeDiscardedVersion : Nat → ParseError
  | NotZeroByte : Nat → Nat → ParseError
  | UnknownAddressFamilyIdentifier : Nat → Nat → ParseError
  | EmptyRIPEntry : Nat → ParseError
  | MaxRIPEntriesNumberExceeded : Nat → ParseError
  | InvalidPacket : PacketError → ParseError
deriving DecidableEq

/-- Embeds `serializer::SerializeError`. -/
inductive SerializeError where
  | UnknownCommandKind
  | UnknownVersion
  | UnknownAddressFamilyIdentifier
deriving DecidableEq

namespace byte_reader

/-- Embeds `byte_reader::read`: read one byte at `cursor`, advancing it. -/
def read (cursor : Nat) (bytes : List Nat) : Except ParseError (Nat × Nat) :=
  match bytes[cursor]? with
  | some b => .ok (b, cursor + 1)
  | none => .error (.InsufficientInputBytesLength cursor)

end byte_reader

namespace zero_bytes

/-- Embeds `zero_bytes::skip`: consume `num_of_zero_bytes` bytes that must
all be zero; the loop over `0..n` becomes recursion on the count. -/
def skip (num_of_zero_bytes cursor : Nat) (bytes : List Nat) : Except ParseError Nat :=
  match num_of_zero_bytes with
  | 0 => .ok cursor
  | n + 1 =>
    match byte_reader.read cursor bytes with
    | .ok (byte, new_cursor) =>
      if byte ≠ 0 then .error (.NotZeroByte byte new_cursor)
      else skip n new_cursor bytes
    | .error e => .error e

end zero_bytes

namespace version

/-- Embeds `version::Version`. -/
inductive Version where
  | MustBeDiscarded
  | Version1
  | Version2
  | Unknown
deriving DecidableEq

/-- Embeds `Version::from_u8`. -/
def Version.from_u8 (value : Nat) : Version :=
  match value with
  | 0 => .MustBeDiscarded
  | 1 => .Version1
  | 2 => .Version2
  | _ => .Unknown

/-- Embeds `Version::to_u8`. -/
def Version.to_u8 : Version → Option Nat
  | .MustBeDiscarded => some 0
  | .Version1 => some 1
  | .Version2 => some 2
  | .Unknown => none

/-- Embeds `impl Serializable for Version`. -/
def Version.to_bytes (v : Version) : Except SerializeError (List Nat) :=
  match v.to_u8 with
  | some byte => .ok [byte]
  | none => .error .UnknownVersion

end version

namespace command

/-- Embeds `command::Kind`. -/
inductive Kind where
  | Invalid
  | Request
  | Response
  | TraceOn
  | TraceOff
  | Reserved
  | TriggeredRequest
  | TriggeredResponse
  | TriggeredAcknowledgement
  | UpdateRequest
  | UpdateResponse
  | UpdateAcknowledge
  | Unknown
deriving DecidableEq

/-- Embeds `Kind::from_u8`. -/
def Kind.from_u8 (value : Nat) : Kind :=
  match value with
  | 0 => .Invalid
  | 1 => .Request
  | 2 => .Response
  | 3 => .TraceOn
  | 4 => .TraceOff
  | 5 => .Reserved
  | 6 => .TriggeredRequest
  | 7 => .TriggeredResponse
  | 8 => .TriggeredAcknowledgement
  | 9 => .UpdateRequest
  | 10 => .UpdateResponse
  | 11 => .UpdateAcknowledge
  | _ => .Unknown

/-- Embeds `Kind::to_u8`. -/
def Kind.to_u8 : Kind → Option Nat
  | .Invalid => some 0
  | .Request => some 1
  | .Response => some 2
  | .TraceOn => some 3
  | .TraceOff => some 4
  | .Reserved => some 5
  | .TriggeredRequest => some 6
  | .TriggeredResponse => some 7
  | .TriggeredAcknowledgement => some 8
  | .UpdateRequest => some 9
  | .UpdateResponse => some 10
  | .UpdateAcknowledge => some 11
  | .Unknown => none

/-- Embeds `Kind::parse`: one byte, unknown values are a parse error. -/
def Kind.parse (cursor : Nat) (bytes : List Nat) : Except ParseError (Kind × Nat) :=
  match byte_reader.read cursor bytes with
  | .error e => .error e
  | .ok (command_byte, cursor) =>
    match Kind.from_u8 command_byte with
    | .Unknown => .error (.UnknownCommandKind command_byte cursor)
    | k => .ok (k, cursor)

/-- Embeds `impl Serializable for Kind`. -/
def Kind.to_bytes (k : Kind) : Except SerializeError (List Nat) :=
  match k.to_u8 with
  | some byte => .ok [byte]
  | none => .error .UnknownCommandKind

end command

namespace address_family

/-- Embeds `address_family::Identifier`. -/
inductive Identifier where
  | Unspecified
  | IP
  | AuthenticationPresent
  | Unknown
deriving DecidableEq

/-- Embeds `Identifier::from_u16`. -/
def Identifier.from_u16 (value : Nat) : Identifier :=
  match value with
  | 0 => .Unspecified
  | 2 => .IP
  | 65535 => .AuthenticationPresent
  | _ => .Unknown

/-- Embeds `Identifier::to_u16`. -/
def Identifier.to_u16 : Identifier → Option Nat
  | .Unspecified => some 0
  | .IP => some 2
  | .AuthenticationPresent => some 65535
  | .Unknown => none

/-- Embeds `Identifier::parse`: two big-endian bytes; an unrecognized
16-bit value is reported at `cursor - 1` (the position of the second byte
just consumed). -/
def Identifier.parse (cursor : Nat) (bytes : List Nat) : Except ParseError (Identifier × Nat) :=
  match byte_reader.read cursor bytes with
  | .error e => .error e
  | .ok (first_byte, cursor) =>
    match byte_reader.read cursor bytes with
    | .error e => .error e
    | .ok (second_byte, cursor) =>
      let value := (first_byte <<< 8) + second_byte
      match Identifier.from_u16 value with
      | .Unknown => .error (.UnknownAddressFamilyIdentifier value (cursor - 1))
      | identifier => .ok (identifier, cursor)

/-- Embeds `impl Serializable for Identifier`. -/
def Identifier.to_bytes (i : Identifier) : Except SerializeError (List Nat) :=
  match i.to_u16 with
  | some v => .ok [(v &&& 0xff00) >>> 8, v &&& 0x00ff]
  | none => .error .UnknownAddressFamilyIdentifier

end address_family

/-- Embeds `std::net::Ipv4Addr` as its four raw octets. -/
structure Ipv4Addr where
  o1 : Nat
  o2 : Nat
  o3 : Nat
  o4 : Nat
deriving DecidableEq

namespace ipv4

/-- Embeds `ipv4::parse`: four raw octets. -/
def parse (cursor : Nat) (bytes : List Nat) : Except ParseError (Ipv4Addr × Nat) :=
  match byte_reader.read cursor bytes with
  | .error e => .error e
  | .ok (a, cursor) =>
    match byte_reader.read cursor bytes with
    | .error e => .error e
    | .ok (b, cursor) =>
      match byte_reader.read cursor bytes with
      | .error e => .error e
      | .ok (c, cursor) =>
        match byte_reader.read cursor bytes with
        | .error e => .error e
        | .ok (d, cursor) => .ok (⟨a, b, c, d⟩, cursor)

/-- Embeds `ipv4::to_bytes`: the octets, verbatim. -/
def to_bytes (ip : Ipv4Addr) : Except SerializeError (List Nat) :=
  .ok [ip.o1, ip.o2, ip.o3, ip.o4]

end ipv4

namespace metric

/-- Embeds the `Metric` alias (`u32`). -/
abbrev Metric := Nat

/-- Embeds `metric::parse`: four big-endian bytes combined by shifts. -/
def parse (cursor : Nat) (bytes : List Nat) : Except ParseError (Metric × Nat) :=
  match byte_reader.read cursor bytes with
  | .error e => .error e
  | .ok (b1, cursor) =>
    match byte_reader.read cursor bytes with
    | .error e => .error e
    | .ok (b2, cursor) =>
      match byte_reader.read cursor bytes with
      | .error e => .error e
      | .ok (b3, cursor) =>
        match byte_reader.read cursor bytes with
        | .error e => .error e
        | .ok (b4, cursor) =>
          .ok ((b1 <<< 24) + (b2 <<< 16) + (b3 <<< 8) + b4, cursor)

/-- Embeds `metric::to_bytes`: mask and shift out each byte. -/
def to_bytes (value : Metric) : Except SerializeError (List Nat) :=
  .ok [(value &&& 0xff000000) >>> 24, (value &&& 0x00ff0000) >>> 16,
    (value &&& 0x0000ff00) >>> 8, value &&& 0x000000ff]

end metric

namespace route_tag

/-- Embeds the `RouteTag` alias (`u16`). -/
abbrev RouteTag := Nat

/-- Embeds `route_tag::parse`: two big-endian bytes. -/
def parse (cursor : Nat) (bytes : List Nat) : Except ParseError (RouteTag × Nat) :=
  match byte_reader.read cursor bytes with
  | .error e => .error e
  | .ok (b1, cursor) =>
    match byte_reader.read cursor bytes with
    | .error e => .error e
    | .ok (b2, cursor) => .ok ((b1 <<< 8) + b2, cursor)

/-- Embeds `route_tag::to_bytes`. -/
def to_bytes (value : RouteTag) : Except SerializeError (List Nat) :=
  .ok [(value &&& 0xff00) >>> 8, value &&& 0x00ff]

end route_tag

namespace header

/-- Embeds `header::Header`. -/
structure Header where
  command : command.Kind
  version : version.Version
deriving DecidableEq

/-- Embeds `header::parse`: command byte, permissive version byte, then
two reserved-zero bytes. -/
def parse (cursor : Nat) (bytes : List Nat) : Except ParseError (Header × Nat) :=
  match command.Kind.parse cursor bytes with
  | .error e => .error e
  | .ok (cmd, cursor) =>
    match byte_reader.read cursor bytes with
    | .error e => .error e
    | .ok (version_byte, cursor) =>
      let version_value := version.Version.from_u8 version_byte
      match zero_bytes.skip 2 cursor bytes with
      | .error e => .error e
      | .ok cursor => .ok (⟨cmd, version_value⟩, cursor)

/-- Embeds `impl Serializable for Header`. -/
def Header.to_bytes (h : Header) : Except SerializeError (List Nat) :=
  match h.command.to_bytes with
  | .error e => .error e
  | .ok command_bytes =>
    match h.version.to_bytes with
    | .error e => .error e
    | .ok version_bytes => .ok (command_bytes ++ version_bytes ++ [0, 0])

end header

namespace v1

/-- Embeds `v1::Entry`. -/
structure Entry where
  address_family_identifier : address_family.Identifier
  ip_address : Ipv4Addr
  metric : metric.Metric
deriving DecidableEq

/-- Embeds `impl Serializable for v1::Entry`. -/
def Entry.to_bytes (e : Entry) : Except SerializeError (List Nat) :=
  match e.address_family_identifier.to_bytes with
  | .error err => .error err
  | .ok afi_bytes =>
    match ipv4.to_bytes e.ip_address with
    | .error err => .error err
    | .ok ip_bytes =>
      match metric.to_bytes e.metric with
      | .error err => .error err
      | .ok metric_bytes =>
        .ok (afi_bytes ++ [0, 0] ++ ip_bytes ++ [0, 0, 0, 0, 0, 0, 0, 0] ++ metric_bytes)

/-- Embeds `v1::EntriesParser::parse_entry` (the `EntriesParser` struct
carries no data, so the method is a plain function): identifier, 2 zero
bytes, address, 8 zero bytes, metric. -/
def parse_entry (cursor : Nat) (bytes : List Nat) : Except ParseError (Entry × Nat) :=
  match address_family.Identifier.parse cursor bytes with
  | .error e => .error e
  | .ok (afi, cursor) =>
    match zero_bytes.skip 2 cursor bytes with
    | .error e => .error e
    | .ok cursor =>
      match ipv4.parse cursor bytes with
      | .error e => .error e
      | .ok (ip_address, cursor) =>
        match zero_bytes.skip 8 cursor bytes with
        | .error e => .error e
        | .ok cursor =>
          match metric.parse cursor bytes with
          | .error e => .error e
          | .ok (m, cursor) => .ok (⟨afi, ip_address, m⟩, cursor)

end v1

namespace v2

/-- Embeds `v2::Entry`. -/
structure Entry where
  address_family_identifier : address_family.Identifier
  route_tag : route_tag.RouteTag
  ip_address : Ipv4Addr
  subnet_mask : Ipv4Addr
  next_hop : Ipv4Addr
  metric : metric.Metric
deriving DecidableEq

/-- Embeds `impl Serializable for v2::Entry`. -/
def Entry.to_bytes (e : Entry) : Except SerializeError (List Nat) :=
  match e.address_family_identifier.to_bytes with
  | .error err => .error err
  | .ok afi_bytes =>
    match route_tag.to_bytes e.route_tag with
    | .error err => .error err
    | .ok route_tag_bytes =>
      match ipv4.to_bytes e.ip_address with
      | .error err => .error err
      | .ok ip_bytes =>
        match ipv4.to_bytes e.subnet_mask with
        | .error err => .error err
        | .ok mask_bytes =>
          match ipv4.to_bytes e.next_hop with
          | .error err => .error err
          | .ok next_hop_bytes =>
            match metric.to_bytes e.metric with
            | .error err => .error err
            | .ok metric_bytes =>
              .ok (afi_bytes ++ route_tag_bytes ++ ip_bytes ++ mask_bytes ++
                next_hop_bytes ++ metric_bytes)

/-- Embeds `v2::EntriesParser::parse_entry`: identifier, route tag,
address, subnet mask, next hop, metric — densely packed 20 bytes. -/
def parse_entry (cursor : Nat) (bytes : List Nat) : Except ParseError (Entry × Nat) :=
  match address_family.Identifier.parse cursor bytes with
  | .error e => .error e
  | .ok (afi, cursor) =>
    match route_tag.parse cursor bytes with
    | .error e => .error e
    | .ok (rt, cursor) =>
      match ipv4.parse cursor bytes with
      | .error e => .error e
      | .ok (ip_address, cursor) =>
        match ipv4.parse cursor bytes with
        | .error e => .error e
        | .ok (subnet_mask, cursor) =>
          match ipv4.parse cursor bytes with
          | .error e => .error e
          | .ok (next_hop, cursor) =>
            match metric.parse cursor bytes with
            | .error e => .error e
            | .ok (m, cursor) =>
              .ok (⟨afi, rt, ip_address, subnet_mask, next_hop, m⟩, cursor)

end v2

/-- Embeds `packet::Packet<T>`. -/
structure Packet (T : Type) where
  header : header.Header
  entries : List T
deriving DecidableEq

namespace Packet

/-- Embeds the private `Packet::new`: rejects more than 25 entries. -/
def new {T : Type} (h : header.Header) (entries : List T) : Except PacketError (Packet T) :=
  if entries.length > 25 then .error .MaxRIPEntriesNumberExceeded
  else .ok ⟨h, entries⟩

/-- Embeds `Packet::<v1::Entry>::make_v1_packet`: the header version must
be `Version1`, then delegates to `Packet::new`. -/
def make_v1_packet (h : header.Header) (entries : List v1.Entry) :
    Except PacketError (Packet v1.Entry) :=
  if h.version ≠ version.Version.Version1 then .error .VersionInHeaderConflicted
  else Packet.new h entries

/-- Embeds `Packet::<v2::Entry>::make_v2_packet`. -/
def make_v2_packet (h : header.Header) (entries : List v2.Entry) :
    Except PacketError (Packet v2.Entry) :=
  if h.version ≠ version.Version.Version2 then .error .VersionInHeaderConflicted
  else Packet.new h entries

end Packet

namespace serializer

/-- Embeds the entry loop of `impl<T: Serializable> Serializable for
Packet<T>`: concatenate each entry's bytes in order, stopping at the first
serialization error. -/
def entries_to_bytes {T : Type} (f : T → Except SerializeError (List Nat)) :
    List T → Except SerializeError (List Nat)
  | [] => .ok []
  | e :: rest =>
    match f e with
    | .error err => .error err
    | .ok eb =>
      match entries_to_bytes f rest with
      | .error err => .error err
      | .ok rest_bytes => .ok (eb ++ rest_bytes)

/-- Embeds `impl<T: Serializable> Serializable for Packet<T>::to_bytes`
(entry bytes are produced first, then the header bytes, as in the source). -/
def packet_to_bytes {T : Type} (f : T → Except SerializeError (List Nat)) (p : Packet T) :
    Except SerializeError (List Nat) :=
  match entries_to_bytes f p.entries with
  | .error err => .error err
  | .ok entries_bytes =>
    match p.header.to_bytes with
    | .error err => .error err
    | .ok header_bytes => .ok (header_bytes ++ entries_bytes)

/-- Embeds `serializer::serialize_v1_packet`. -/
def serialize_v1_packet (p : Packet v1.Entry) : Except SerializeError (List Nat) :=
  packet_to_bytes v1.Entry.to_bytes p

/-- Embeds `serializer::serialize_v2_packet`. -/
def serialize_v2_packet (p : Packet v2.Entry) : Except SerializeError (List Nat) :=
  packet_to_bytes v2.Entry.to_bytes p

end serializer

namespace parser

/-- Embeds `parser::ParsedPacket`, the version-tagged envelope. -/
inductive ParsedPacket where
  | V1 : Packet v1.Entry → ParsedPacket
  | V2 : Packet v2.Entry → ParsedPacket
deriving DecidableEq

/-- Embeds the `loop` inside `parser::parse_entries`: `entries` is the
accumulator; each turn checks the 25-entry cap, parses one entry, appends
it, and stops once the cursor reaches the end of the buffer.  The loop
runs at most 25 times, which is the termination measure. -/
def parse_entries_go {T : Type} (pe : Nat → List Nat → Except ParseError (T × Nat))
    (bytes : List Nat) (entries : List T) (cursor : Nat) : Except ParseError (List T) :=
  if entries.length ≥ 25 then .error (.MaxRIPEntriesNumberExceeded cursor)
  else
    match pe cursor bytes with
    | .error e => .error e
    | .ok (entry, new_cursor) =>
      if new_cursor ≥ bytes.length then .ok (entries ++ [entry])
      else parse_entries_go pe bytes (entries ++ [entry]) new_cursor
termination_by 25 - entries.length
decreasing_by simp [List.length_append]; omega

/-- Embeds `parser::parse_entries`: empty-entry-section guard
(`bytes.len() - 1 <= cursor`, with saturating `Nat` subtraction like
`usize`), then the entry loop starting from an empty accumulator. -/
def parse_entries {T : Type} (pe : Nat → List Nat → Except ParseError (T × Nat))
    (cursor : Nat) (bytes : List Nat) : Except ParseError (List T) :=
  if bytes.length - 1 ≤ cursor then .error (.EmptyRIPEntry cursor)
  else parse_entries_go pe bytes [] cursor

/-- Embeds `parser::parse`: decode the header, dispatch on its version.
The Rust source calls `.unwrap()` on `make_v1_packet`/`make_v2_packet`;
the `.error (.InvalidPacket e)` arms model that panic branch, proved
unreachable below. -/
def parse (bytes : List Nat) : Except ParseError ParsedPacket :=
  match header.parse 0 bytes with
  | .error e => .error e
  | .ok (hdr, cursor) =>
    match hdr.version with
    | .Version1 =>
      match parse_entries v1.parse_entry cursor bytes with
      | .ok entries =>
        match Packet.make_v1_packet hdr entries with
        | .ok p => .ok (.V1 p)
        | .error e => .error (.InvalidPacket e)
      | .error e => .error e
    | .Version2 =>
      match parse_entries v2.parse_entry cursor bytes with
      | .ok entries =>
        match Packet.make_v2_packet hdr entries with
        | .ok p => .ok (.V2 p)
        | .error e => .error (.InvalidPacket e)
      | .error e => .error e
    | .MustBeDiscarded => .error (.MustBeDiscardedVersion 2)
    | .Unknown => .error (.UnknownVersion 2)

/-- Embeds `parser::parse_v1`: header, v1 entry loop, then packet
construction whose failure is wrapped as `InvalidPacket`. -/
def parse_v1 (bytes : List Nat) : Except ParseError (Packet v1.Entry) :=
  match header.parse 0 bytes with
  | .error e => .error e
  | .ok (hdr, cursor) =>
    match parse_entries v1.parse_entry cursor bytes with
    | .ok entries =>
      match Packet.make_v1_packet hdr entries with
      | .ok p => .ok p
      | .error e => .error (.InvalidPacket e)
    | .error e => .error e

/-- Embeds `parser::parse_v2`. -/
def parse_v2 (bytes : List Nat) : Except ParseError (Packet v2.Entry) :=
  match header.parse 0 bytes with
  | .error e => .error e
  | .ok (hdr, cursor) =>
    match parse_entries v2.parse_entry cursor bytes with
    | .ok entries =>
      match Packet.make_v2_packet hdr entries with
      | .ok p => .ok p
      | .error e => .error (.InvalidPacket e)
    | .error e => .error e

/-- Number of entries carried by a parsed envelope. -/
def ParsedPacket.numEntries : ParsedPacket → Nat
  | .V1 p => p.entries.length
  | .V2 p => p.entries.length

end parser

/-- Distinguishes the `InvalidPacket` wrapper from every other parse
error, for stating that certain code paths never produce it. -/
def ParseError.isInvalidPacket : ParseError → Bool
  | .InvalidPacket _ => true
  | _ => false

/-- The octet bounds implicit in the Rust `u8` fields of `Ipv4Addr`. -/
def Ipv4Addr.wf (ip : Ipv4Addr) : Prop :=
  ip.o1 < 256 ∧ ip.o2 < 256 ∧ ip.o3 < 256 ∧ ip.o4 < 256

/-- A v1 entry drawn from the Rust value domain: a named (encodable)
address family, a `u32` metric, and `u8` address octets. -/
def v1.Entry.wf (e : v1.Entry) : Prop :=
  e.address_family_identifier ≠ address_family.Identifier.Unknown ∧
  e.metric < 2 ^ 32 ∧ e.ip_address.wf

/-- A v2 entry drawn from the Rust value domain: a named (encodable)
address family, a `u16` route tag, a `u32` metric, and `u8` octets. -/
def v2.Entry.wf (e : v2.Entry) : Prop :=
  e.address_family_identifier ≠ address_family.Identifier.Unknown ∧
  e.route_tag < 2 ^ 16 ∧ e.metric < 2 ^ 32 ∧
  e.ip_address.wf ∧ e.subnet_mask.wf ∧ e.next_hop.wf

/-! Basic inversion lemmas about the cursor-based readers. -/

theorem byte_reader.read_ok {cursor : Nat} {bytes : List Nat} {b c' : Nat}
    (h : byte_reader.read cursor bytes = .ok (b, c')) :
    bytes[cursor]? = some b ∧ c' = cursor + 1 := by
  unfold byte_reader.read at h
  split at h
  · rename_i heq
    cases h
    exact ⟨heq, rfl⟩
  · cases h

theorem byte_reader.read_of_getElem {cursor : Nat} {bytes : List Nat} {b : Nat}
    (h : bytes[cursor]? = some b) :
    byte_reader.read cursor bytes = .ok (b, cursor + 1) := by
  unfold byte_reader.read
  rw [h]

theorem zero_bytes.skip_ok {n cursor : Nat} {bytes : List Nat} {c' : Nat}
    (h : zero_bytes.skip n cursor bytes = .ok c') : c' = cursor + n := by
  induction n generalizing cursor with
  | zero =>
    unfold zero_bytes.skip at h
    cases h
    rfl
  | succ m ih =>
    unfold zero_bytes.skip at h
    split at h
    · rename_i b nc heq
      split at h
      · cases h
      · have := ih h
        have hr := byte_reader.read_ok heq
        omega
    · cases h

theorem zero_bytes.skip_first_nonzero {bytes : List Nat} {n c i b : Nat}
    (hi : i < n) (hzero : ∀ j, j < i → bytes[c + j]? = some 0)
    (hb : bytes[c + i]? = some b) (hb0 : b ≠ 0) :
    zero_bytes.skip n c bytes = .error (.NotZeroByte b (c + i + 1)) := by
  induction i generalizing n c with
  | zero =>
    obtain ⟨m, rfl⟩ : ∃ m, n = m + 1 := ⟨n - 1, by omega⟩
    unfold zero_bytes.skip
    rw [byte_reader.read_of_getElem (by simpa using hb)]
    simp [hb0]
  | succ i ih =>
    obtain ⟨m, rfl⟩ : ∃ m, n = m + 1 := ⟨n - 1, by omega⟩
    unfold zero_bytes.skip
    rw [byte_reader.read_of_getElem (by simpa using hzero 0 (by omega))]
    simp only [ne_eq, not_true_eq_false, if_false, ite_false]
    have hstep := ih (n := m) (c := c + 1) (by omega)
      (fun j hj => by
        have := hzero (j + 1) (by omega)
        simpa [Nat.add_assoc, Nat.add_comm 1 j] using this)
      (by
        have : c + 1 + i = c + (i + 1) := by omega
        rw [this]
        exact hb)
    rw [show c + 1 + i + 1 = c + (i + 1) + 1 by omega] at hstep
    simpa using hstep

theorem zero_bytes.skip_insufficient {bytes : List Nat} {n c i : Nat}
    (hi : i < n) (hzero : ∀ j, j < i → bytes[c + j]? = some 0)
    (hb : bytes[c + i]? = none) :
    zero_bytes.skip n c bytes = .error (.InsufficientInputBytesLength (c + i)) := by
  induction i generalizing n c with
  | zero =>
    obtain ⟨m, rfl⟩ : ∃ m, n = m + 1 := ⟨n - 1, by omega⟩
    unfold zero_bytes.skip
    unfold byte_reader.read
    rw [show bytes[c]? = none by simpa using hb]
    rfl
  | succ i ih =>
    obtain ⟨m, rfl⟩ : ∃ m, n = m + 1 := ⟨n - 1, by omega⟩
    unfold zero_bytes.skip
    rw [byte_reader.read_of_getElem (by simpa using hzero 0 (by omega))]
    simp only [ne_eq, not_true_eq_false, if_false, ite_false]
    have hstep := ih (n := m) (c := c + 1) (by omega)
      (fun j hj => by
        have := hzero (j + 1) (by omega)
        simpa [Nat.add_assoc, Nat.add_comm 1 j] using this)
      (by
        have : c + 1 + i = c + (i + 1) := by omega
        rw [this]
        exact hb)
    rw [show c + 1 + i = c + (i + 1) by omega] at hstep
    simpa using hstep

/-- Claim C6: when `zero_bytes::skip` meets its first non-zero byte `b`
at position `p`, it fails with `NotZeroByte b (p+1)` — the reported
offset is one past the violating byte; and when the underlying reader
runs out of input after the leading zeros, its
`InsufficientInputBytesLength` error is propagated unchanged. -/
theorem skip_zero_error_reporting :
    (∀ (bytes : List Nat) (n c i b : Nat), i < n →
      (∀ j, j < i → bytes[c + j]? = some 0) →
      bytes[c + i]? = some b → b ≠ 0 →
      zero_bytes.skip n c bytes = .error (.NotZeroByte b (c + i + 1))) ∧
    (∀ (bytes : List Nat) (n c i : Nat), i < n →
      (∀ j, j < i → bytes[c + j]? = some 0) →
      bytes[c + i]? = none →
      zero_bytes.skip n c bytes = .error (.InsufficientInputBytesLength (c + i))) :=
  ⟨fun _ _ _ _ _ hi hzero hb hb0 => zero_bytes.skip_first_nonzero hi hzero hb hb0,
   fun _ _ _ _ hi hzero hb => zero_bytes.skip_insufficient hi hzero hb⟩

theorem skip_zero_error_reporting_witness :
    zero_bytes.skip 2 2 [2, 2, 0, 5] = .error (.NotZeroByte 5 4) ∧
    zero_bytes.skip 2 2 [2, 2, 0] = .error (.InsufficientInputBytesLength 3) := by
  constructor
  · have := skip_zero_error_reporting.1 [2, 2, 0, 5] 2 2 1 5 (by decide)
      (fun j hj => by interval_cases j <;> rfl) (by rfl) (by decide)
    simpa using this
  · have := skip_zero_error_reporting.2 [2, 2, 0] 2 2 1 (by decide)
      (fun j hj => by interval_cases j <;> rfl) (by rfl)
    simpa using this

theorem command.Kind.parse_ok_kind {cursor : Nat} {bytes : List Nat}
    {k : command.Kind} {c' : Nat}
    (h : command.Kind.parse cursor bytes = .ok (k, c')) : c' = cursor + 1 := by
  unfold command.Kind.parse at h
  split at h
  · cases h
  · rename_i cb c1 hread
    obtain ⟨hget, hc1⟩ := byte_reader.read_ok hread
    subst hc1
    split at h <;> cases h <;> rfl

theorem header.parse_ok_header {bytes : List Nat} {h : header.Header} {c' : Nat}
    (hp : header.parse 0 bytes = .ok (h, c')) :
    c' = 4 ∧ ∃ vb, bytes[1]? = some vb ∧ h.version = version.Version.from_u8 vb := by
  unfold header.parse at hp
  split at hp
  · cases hp
  · rename_i cmd c1 hcmd
    have hc1 := command.Kind.parse_ok_kind hcmd
    subst hc1
    split at hp
    · cases hp
    · rename_i vb c2 hread
      obtain ⟨hget, hc2⟩ := byte_reader.read_ok hread
      subst hc2
      split at hp
      · cases hp
      · rename_i c3 hskip
        have hc3 := zero_bytes.skip_ok hskip
        cases hp
        subst hc3
        exact ⟨rfl, vb, by simpa using hget, rfl⟩

theorem version.from_u8_unknown {vb : Nat} (h0 : vb ≠ 0) (h1 : vb ≠ 1) (h2 : vb ≠ 2) :
    version.Version.from_u8 vb = version.Version.Unknown := by
  unfold version.Version.from_u8
  split <;> simp_all

/-- Claim C5: whenever the 4-byte header decodes and the version byte is
0, top-level `parse` fails with `MustBeDiscardedVersion 2` (the entry
section plays no role: the statement holds for every buffer with such a
header); with a version byte other than 0, 1, 2 it fails with the
version-specific `UnknownVersion 2`. -/
theorem parse_version_dispatch_errors :
    (∀ (bytes : List Nat) (h : header.Header) (c : Nat),
      header.parse 0 bytes = .ok (h, c) → bytes[1]? = some 0 →
      parser.parse bytes = .error (.MustBeDiscardedVersion 2)) ∧
    (∀ (bytes : List Nat) (h : header.Header) (c : Nat) (vb : Nat),
      header.parse 0 bytes = .ok (h, c) → bytes[1]? = some vb →
      vb ≠ 0 → vb ≠ 1 → vb ≠ 2 →
      parser.parse bytes = .error (.UnknownVersion 2)) := by
  constructor
  · intro bytes h c hp hbyte
    obtain ⟨hc, vb, hvb, hver⟩ := header.parse_ok_header hp
    rw [hvb] at hbyte
    cases hbyte
    obtain ⟨cmd, ver⟩ := h
    have hver' : ver = version.Version.MustBeDiscarded := hver
    subst hver'
    unfold parser.parse
    rw [hp]
  · intro bytes h c vb hp hbyte h0 h1 h2
    obtain ⟨hc, vb', hvb, hver⟩ := header.parse_ok_header hp
    rw [hvb] at hbyte
    cases hbyte
    obtain ⟨cmd, ver⟩ := h
    have hver' : ver = version.Version.from_u8 vb := hver
    rw [version.from_u8_unknown h0 h1 h2] at hver'
    subst hver'
    unfold parser.parse
    rw [hp]

theorem parse_version_dispatch_errors_witness :
    parser.parse [2, 0, 0, 0] = .error (.MustBeDiscardedVersion 2) ∧
    parser.parse [2, 255, 0, 0] = .error (.UnknownVersion 2) :=
  ⟨parse_version_dispatch_errors.1 [2, 0, 0, 0]
      ⟨command.Kind.Response, version.Version.MustBeDiscarded⟩ 4 rfl rfl,
   parse_version_dispatch_errors.2 [2, 255, 0, 0]
      ⟨command.Kind.Response, version.Version.Unknown⟩ 4 255 rfl rfl
      (by decide) (by decide) (by decide)⟩

/-- Claim C8: after a successful header decode with a legal version
(`Version1` or `Version2`), a buffer with no entry bytes left makes
top-level `parse` fail with `EmptyRIPEntry cursor`; in particular the
header-only buffer `[2,2,0,0]` fails with `EmptyRIPEntry 4`. -/
theorem parse_empty_entry_section (bytes : List Nat) (h : header.Header) (c : Nat)
    (hp : header.parse 0 bytes = .ok (h, c))
    (hver : h.version = version.Version.Version1 ∨
      h.version = version.Version.Version2)
    (hlen : bytes.length ≤ c) :
    parser.parse bytes = .error (.EmptyRIPEntry c) := by
  obtain ⟨hc, vb, hvb, hverb⟩ := header.parse_ok_header hp
  subst hc
  have hpe1 : parser.parse_entries v1.parse_entry 4 bytes = .error (.EmptyRIPEntry 4) := by
    unfold parser.parse_entries
    rw [if_pos (by omega)]
  have hpe2 : parser.parse_entries v2.parse_entry 4 bytes = .error (.EmptyRIPEntry 4) := by
    unfold parser.parse_entries
    rw [if_pos (by omega)]
  obtain ⟨cmd, ver⟩ := h
  rcases hver with hver | hver
  · have hver' : ver = version.Version.Version1 := hver
    subst hver'
    unfold parser.parse
    rw [hp]
    simp only [hpe1]
  · have hver' : ver = version.Version.Version2 := hver
    subst hver'
    unfold parser.parse
    rw [hp]
    simp only [hpe2]

theorem parse_empty_entry_section_witness :
    parser.parse [2, 2, 0, 0] = .error (.EmptyRIPEntry 4) :=
  parse_empty_entry_section [2, 2, 0, 0]
    ⟨command.Kind.Response, version.Version.Version2⟩ 4 rfl
    (Or.inr rfl) (by decide)

/-- Claim C3: with a matching-version header, `make_v1_packet` and
`make_v2_packet` fail with `MaxRIPEntriesNumberExceeded` on more than 25
entries, and succeed on exactly 25 entries. -/
theorem make_packet_entry_cap (h : header.Header)
    (es1 : List v1.Entry) (es2 : List v2.Entry) :
    (h.version = version.Version.Version1 →
      (25 < es1.length →
        Packet.make_v1_packet h es1 = .error .MaxRIPEntriesNumberExceeded) ∧
      (es1.length = 25 → Packet.make_v1_packet h es1 = .ok ⟨h, es1⟩)) ∧
    (h.version = version.Version.Version2 →
      (25 < es2.length →
        Packet.make_v2_packet h es2 = .error .MaxRIPEntriesNumberExceeded) ∧
      (es2.length = 25 → Packet.make_v2_packet h es2 = .ok ⟨h, es2⟩)) := by
  constructor
  · intro hv
    unfold Packet.make_v1_packet Packet.new
    rw [hv]
    constructor
    · intro hlen
      simp [hlen]
    · intro hlen
      simp [hlen]
  · intro hv
    unfold Packet.make_v2_packet Packet.new
    rw [hv]
    constructor
    · intro hlen
      simp [hlen]
    · intro hlen
      simp [hlen]

theorem make_packet_entry_cap_witness :
    Packet.make_v1_packet ⟨command.Kind.Response, version.Version.Version1⟩
      (List.replicate 26 ⟨address_family.Identifier.IP, ⟨192, 0, 2, 100⟩, 1⟩) =
      .error .MaxRIPEntriesNumberExceeded ∧
    Packet.make_v2_packet ⟨command.Kind.Response, version.Version.Version2⟩
      (List.replicate 25 ⟨address_family.Identifier.IP, 0, ⟨192, 0, 2, 100⟩,
        ⟨255, 255, 255, 0⟩, ⟨192, 0, 2, 1⟩, 1⟩) =
      .ok ⟨⟨command.Kind.Response, version.Version.Version2⟩,
        List.replicate 25 ⟨address_family.Identifier.IP, 0, ⟨192, 0, 2, 100⟩,
          ⟨255, 255, 255, 0⟩, ⟨192, 0, 2, 1⟩, 1⟩⟩ :=
  ⟨((make_packet_entry_cap ⟨command.Kind.Response, version.Version.Version1⟩
      (List.replicate 26 ⟨address_family.Identifier.IP, ⟨192, 0, 2, 100⟩, 1⟩) []).1
      rfl).1 (by simp),
   ((make_packet_entry_cap ⟨command.Kind.Response, version.Version.Version2⟩ []
      (List.replicate 25 ⟨address_family.Identifier.IP, 0, ⟨192, 0, 2, 100⟩,
        ⟨255, 255, 255, 0⟩, ⟨192, 0, 2, 1⟩, 1⟩)).2
      rfl).2 (by simp)⟩

/-- Claim C4: `make_v1_packet` rejects every header whose version is not
`Version1` with `VersionInHeaderConflicted` (symmetrically for
`make_v2_packet` and `Version2`), and every packet produced by these
public constructors carries the matching header version. -/
theorem make_packet_version_guard :
    (∀ (h : header.Header) (es : List v1.Entry),
      h.version ≠ version.Version.Version1 →
        Packet.make_v1_packet h es = .error .VersionInHeaderConflicted) ∧
    (∀ (h : header.Header) (es : List v2.Entry),
      h.version ≠ version.Version.Version2 →
        Packet.make_v2_packet h es = .error .VersionInHeaderConflicted) ∧
    (∀ (h : header.Header) (es : List v1.Entry) (p : Packet v1.Entry),
      Packet.make_v1_packet h es = .ok p →
        p.header.version = version.Version.Version1) ∧
    (∀ (h : header.Header) (es : List v2.Entry) (p : Packet v2.Entry),
      Packet.make_v2_packet h es = .ok p →
        p.header.version = version.Version.Version2) := by
  refine ⟨?_, ?_, ?_, ?_⟩
  · intro h es hv
    simp [Packet.make_v1_packet, hv]
  · intro h es hv
    simp [Packet.make_v2_packet, hv]
  · intro h es p hp
    unfold Packet.make_v1_packet Packet.new at hp
    split at hp
    · cases hp
    · rename_i hv
      split at hp
      · cases hp
      · cases hp
        simpa using hv
  · intro h es p hp
    unfold Packet.make_v2_packet Packet.new at hp
    split at hp
    · cases hp
    · rename_i hv
      split at hp
      · cases hp
      · cases hp
        simpa using hv

theorem Packet.make_v1_conflict {h : header.Header} {es : List v1.Entry}
    (hv : h.version ≠ version.Version.Version1) :
    Packet.make_v1_packet h es = .error .VersionInHeaderConflicted := by
  simp [Packet.make_v1_packet, hv]

theorem Packet.make_v2_conflict {h : header.Header} {es : List v2.Entry}
    (hv : h.version ≠ version.Version.Version2) :
    Packet.make_v2_packet h es = .error .VersionInHeaderConflicted := by
  simp [Packet.make_v2_packet, hv]

theorem parser.parse_entries_go_eq {T : Type}
    (pe : Nat → List Nat → Except ParseError (T × Nat))
    (bytes : List Nat) (entries : List T) (cursor : Nat) :
    parser.parse_entries_go pe bytes entries cursor =
      if entries.length ≥ 25 then .error (.MaxRIPEntriesNumberExceeded cursor)
      else
        match pe cursor bytes with
        | .error e => .error e
        | .ok (entry, new_cursor) =>
          if new_cursor ≥ bytes.length then .ok (entries ++ [entry])
          else parser.parse_entries_go pe bytes (entries ++ [entry]) new_cursor := by
  rw [parser.parse_entries_go]

theorem byte_reader.read_lt {cursor : Nat} {bytes : List Nat} {b c' : Nat}
    (h : byte_reader.read cursor bytes = .ok (b, c')) : cursor < bytes.length := by
  obtain ⟨hget, -⟩ := byte_reader.read_ok h
  by_contra hge
  rw [List.getElem?_eq_none (by omega)] at hget
  cases hget

theorem byte_reader.read_error {cursor : Nat} {bytes : List Nat} {err : ParseError}
    (h : byte_reader.read cursor bytes = .error err) : err.isInvalidPacket = false := by
  unfold byte_reader.read at h
  split at h
  · cases h
  · cases h
    rfl

theorem zero_bytes.skip_error {n cursor : Nat} {bytes : List Nat} {err : ParseError}
    (h : zero_bytes.skip n cursor bytes = .error err) : err.isInvalidPacket = false := by
  induction n generalizing cursor with
  | zero =>
    unfold zero_bytes.skip at h
    cases h
  | succ m ih =>
    unfold zero_bytes.skip at h
    cases hr : byte_reader.read cursor bytes with
    | error e =>
      simp only [hr] at h
      cases h
      exact byte_reader.read_error hr
    | ok pr =>
      obtain ⟨b, nc⟩ := pr
      simp only [hr] at h
      split at h
      · cases h
        rfl
      · exact ih h

theorem command.Kind.parse_error_kind {cursor : Nat} {bytes : List Nat} {err : ParseError}
    (h : command.Kind.parse cursor bytes = .error err) : err.isInvalidPacket = false := by
  unfold command.Kind.parse at h
  split at h
  · cases h
    rename_i hr
    exact byte_reader.read_error hr
  · split at h <;> cases h <;> rfl

theorem address_family.Identifier.parse_ok_afi {cursor : Nat} {bytes : List Nat}
    {afi : address_family.Identifier} {c' : Nat}
    (h : address_family.Identifier.parse cursor bytes = .ok (afi, c')) :
    c' = cursor + 2 := by
  unfold address_family.Identifier.parse at h
  split at h
  · cases h
  · rename_i b1 c1 hr1
    obtain ⟨-, hc1⟩ := byte_reader.read_ok hr1
    split at h
    · cases h
    · rename_i b2 c2 hr2
      obtain ⟨-, hc2⟩ := byte_reader.read_ok hr2
      dsimp only at h
      split at h <;> cases h <;> omega

theorem address_family.Identifier.parse_error_afi {cursor : Nat} {bytes : List Nat}
    {err : ParseError}
    (h : address_family.Identifier.parse cursor bytes = .error err) :
    err.isInvalidPacket = false := by
  unfold address_family.Identifier.parse at h
  split at h
  · cases h
    rename_i hr
    exact byte_reader.read_error hr
  · split at h
    · cases h
      rename_i hr
      exact byte_reader.read_error hr
    · dsimp only at h
      split at h <;> cases h <;> rfl

theorem ipv4.parse_ok_ipv4 {cursor : Nat} {bytes : List Nat} {ip : Ipv4Addr} {c' : Nat}
    (h : ipv4.parse cursor bytes = .ok (ip, c')) : c' = cursor + 4 := by
  unfold ipv4.parse at h
  split at h
  · cases h
  · rename_i b1 c1 hr1
    obtain ⟨-, hc1⟩ := byte_reader.read_ok hr1
    split at h
    · cases h
    · rename_i b2 c2 hr2
      obtain ⟨-, hc2⟩ := byte_reader.read_ok hr2
      split at h
      · cases h
      · rename_i b3 c3 hr3
        obtain ⟨-, hc3⟩ := byte_reader.read_ok hr3
        split at h
        · cases h
        · rename_i b4 c4 hr4
          obtain ⟨-, hc4⟩ := byte_reader.read_ok hr4
          cases h
          omega

theorem ipv4.parse_error_ipv4 {cursor : Nat} {bytes : List Nat} {err : ParseError}
    (h : ipv4.parse cursor bytes = .error err) : err.isInvalidPacket = false := by
  unfold ipv4.parse at h
  split at h
  · cases h
    rename_i hr
    exact byte_reader.read_error hr
  · split at h
    · cases h
      rename_i hr
      exact byte_reader.read_error hr
    · split at h
      · cases h
        rename_i hr
        exact byte_reader.read_error hr
      · split at h
        · cases h
          rename_i hr
          exact byte_reader.read_error hr
        · cases h

theorem metric.parse_ok_metric {cursor : Nat} {bytes : List Nat} {m c' : Nat}
    (h : metric.parse cursor bytes = .ok (m, c')) :
    c' = cursor + 4 ∧ c' ≤ bytes.length := by
  unfold metric.parse at h
  split at h
  · cases h
  · rename_i b1 c1 hr1
    obtain ⟨-, hc1⟩ := byte_reader.read_ok hr1
    split at h
    · cases h
    · rename_i b2 c2 hr2
      obtain ⟨-, hc2⟩ := byte_reader.read_ok hr2
      split at h
      · cases h
      · rename_i b3 c3 hr3
        obtain ⟨-, hc3⟩ := byte_reader.read_ok hr3
        split at h
        · cases h
        · rename_i b4 c4 hr4
          obtain ⟨-, hc4⟩ := byte_reader.read_ok hr4
          have hlt := byte_reader.read_lt hr4
          cases h
          omega

theorem metric.parse_error_metric {cursor : Nat} {bytes : List Nat} {err : ParseError}
    (h : metric.parse cursor bytes = .error err) : err.isInvalidPacket = false := by
  unfold metric.parse at h
  split at h
  · cases h
    rename_i hr
    exact byte_reader.read_error hr
  · split at h
    · cases h
      rename_i hr
      exact byte_reader.read_error hr
    · split at h
      · cases h
        rename_i hr
        exact byte_reader.read_error hr
      · split at h
        · cases h
          rename_i hr
          exact byte_reader.read_error hr
        · cases h

theorem route_tag.parse_ok_route_tag {cursor : Nat} {bytes : List Nat} {rt c' : Nat}
    (h : route_tag.parse cursor bytes = .ok (rt, c')) : c' = cursor + 2 := by
  unfold route_tag.parse at h
  split at h
  · cases h
  · rename_i b1 c1 hr1
    obtain ⟨-, hc1⟩ := byte_reader.read_ok hr1
    split at h
    · cases h
    · rename_i b2 c2 hr2
      obtain ⟨-, hc2⟩ := byte_reader.read_ok hr2
      cases h
      omega

theorem route_tag.parse_error_route_tag {cursor : Nat} {bytes : List Nat} {err : ParseError}
    (h : route_tag.parse cursor bytes = .error err) : err.isInvalidPacket = false := by
  unfold route_tag.parse at h
  split at h
  · cases h
    rename_i hr
    exact byte_reader.read_error hr
  · split at h
    · cases h
      rename_i hr
      exact byte_reader.read_error hr
    · cases h

theorem v1.parse_entry_ok_v1 {cursor : Nat} {bytes : List Nat} {e : v1.Entry} {c' : Nat}
    (h : v1.parse_entry cursor bytes = .ok (e, c')) :
    c' = cursor + 20 ∧ c' ≤ bytes.length := by
  unfold v1.parse_entry at h
  split at h
  · cases h
  · rename_i afi c1 h1
    have hc1 := address_family.Identifier.parse_ok_afi h1
    split at h
    · cases h
    · rename_i c2 h2
      have hc2 := zero_bytes.skip_ok h2
      split at h
      · cases h
      · rename_i ip c3 h3
        have hc3 := ipv4.parse_ok_ipv4 h3
        split at h
        · cases h
        · rename_i c4 h4
          have hc4 := zero_bytes.skip_ok h4
          split at h
          · cases h
          · rename_i m c5 h5
            obtain ⟨hc5, hlen⟩ := metric.parse_ok_metric h5
            cases h
            omega

theorem v1.parse_entry_error_v1 {cursor : Nat} {bytes : List Nat} {err : ParseError}
    (h : v1.parse_entry cursor bytes = .error err) : err.isInvalidPacket = false := by
  unfold v1.parse_entry at h
  split at h
  · cases h
    rename_i hr
    exact address_family.Identifier.parse_error_afi hr
  · split at h
    · cases h
      rename_i hr
      exact zero_bytes.skip_error hr
    · split at h
      · cases h
        rename_i hr
        exact ipv4.parse_error_ipv4 hr
      · split at h
        · cases h
          rename_i hr
          exact zero_bytes.skip_error hr
        · split at h
          · cases h
            rename_i hr
            exact metric.parse_error_metric hr
          · cases h

theorem v2.parse_entry_ok_v2 {cursor : Nat} {bytes : List Nat} {e : v2.Entry} {c' : Nat}
    (h : v2.parse_entry cursor bytes = .ok (e, c')) :
    c' = cursor + 20 ∧ c' ≤ bytes.length := by
  unfold v2.parse_entry at h
  split at h
  · cases h
  · rename_i afi c1 h1
    have hc1 := address_family.Identifier.parse_ok_afi h1
    split at h
    · cases h
    · rename_i rt c2 h2
      have hc2 := route_tag.parse_ok_route_tag h2
      split at h
      · cases h
      · rename_i ip c3 h3
        have hc3 := ipv4.parse_ok_ipv4 h3
        split at h
        · cases h
        · rename_i mask c4 h4
          have hc4 := ipv4.parse_ok_ipv4 h4
          split at h
          · cases h
          · rename_i nh c5 h5
            have hc5 := ipv4.parse_ok_ipv4 h5
            split at h
            · cases h
            · rename_i m c6 h6
              obtain ⟨hc6, hlen⟩ := metric.parse_ok_metric h6
              cases h
              omega

theorem v2.parse_entry_error_v2 {cursor : Nat} {bytes : List Nat} {err : ParseError}
    (h : v2.parse_entry cursor bytes = .error err) : err.isInvalidPacket = false := by
  unfold v2.parse_entry at h
  split at h
  · cases h
    rename_i hr
    exact address_family.Identifier.parse_error_afi hr
  · split at h
    · cases h
      rename_i hr
      exact route_tag.parse_error_route_tag hr
    · split at h
      · cases h
        rename_i hr
        exact ipv4.parse_error_ipv4 hr
      · split at h
        · cases h
          rename_i hr
          exact ipv4.parse_error_ipv4 hr
        · split at h
          · cases h
            rename_i hr
            exact ipv4.parse_error_ipv4 hr
          · split at h
            · cases h
              rename_i hr
              exact metric.parse_error_metric hr
            · cases h

theorem header.parse_error_header {cursor : Nat} {bytes : List Nat} {err : ParseError}
    (h : header.parse cursor bytes = .error err) : err.isInvalidPacket = false := by
  unfold header.parse at h
  split at h
  · cases h
    rename_i hr
    exact command.Kind.parse_error_kind hr
  · split at h
    · cases h
      rename_i hr
      exact byte_reader.read_error hr
    · split at h
      · cases h
        rename_i hr
        exact zero_bytes.skip_error hr
      · cases h

/-! Facts about the entry loop, proved by induction on the remaining
allowance of entries (the loop adds one entry per turn and errors out at
25, so `25 - entries.length` decreases). -/

theorem parser.parse_entries_go_length {T : Type}
    {pe : Nat → List Nat → Except ParseError (T × Nat)} {bytes : List Nat} :
    ∀ (m : Nat) (entries : List T) (cursor : Nat) (es : List T),
      25 - entries.length ≤ m →
      parser.parse_entries_go pe bytes entries cursor = .ok es →
      es.length ≤ 25 := by
  intro m
  induction m with
  | zero =>
    intro entries cursor es hm h
    rw [parser.parse_entries_go_eq, if_pos (by omega)] at h
    cases h
  | succ m ih =>
    intro entries cursor es hm h
    rw [parser.parse_entries_go_eq] at h
    by_cases hg : entries.length ≥ 25
    · rw [if_pos hg] at h
      cases h
    · rw [if_neg hg] at h
      cases hpe : pe cursor bytes with
      | error e =>
        simp only [hpe] at h
        cases h
      | ok pr =>
        obtain ⟨e, nc⟩ := pr
        simp only [hpe] at h
        split at h
        · cases h
          simp only [List.length_append, List.length_cons, List.length_nil]
          omega
        · exact ih (entries ++ [e]) nc es (by simp; omega) h

theorem parser.parse_entries_go_error {T : Type}
    {pe : Nat → List Nat → Except ParseError (T × Nat)} {bytes : List Nat}
    (hpe_err : ∀ (c : Nat) (err : ParseError),
      pe c bytes = .error err → err.isInvalidPacket = false) :
    ∀ (m : Nat) (entries : List T) (cursor : Nat) (err : ParseError),
      25 - entries.length ≤ m →
      parser.parse_entries_go pe bytes entries cursor = .error err →
      err.isInvalidPacket = false := by
  intro m
  induction m with
  | zero =>
    intro entries cursor err hm h
    rw [parser.parse_entries_go_eq, if_pos (by omega)] at h
    cases h
    rfl
  | succ m ih =>
    intro entries cursor err hm h
    rw [parser.parse_entries_go_eq] at h
    by_cases hg : entries.length ≥ 25
    · rw [if_pos hg] at h
      cases h
      rfl
    · rw [if_neg hg] at h
      cases hp : pe cursor bytes with
      | error e =>
        simp only [hp] at h
        cases h
        exact hpe_err cursor err hp
      | ok pr =>
        obtain ⟨e, nc⟩ := pr
        simp only [hp] at h
        split at h
        · cases h
        · exact ih (entries ++ [e]) nc err (by simp; omega) h

theorem parser.parse_entries_go_spec {T : Type}
    {pe : Nat → List Nat → Except ParseError (T × Nat)} {bytes : List Nat}
    (hstep : ∀ (c : Nat) (e : T) (c' : Nat),
      pe c bytes = .ok (e, c') → c' = c + 20 ∧ c' ≤ bytes.length) :
    ∀ (m : Nat) (entries : List T) (cursor : Nat) (es : List T),
      25 - entries.length ≤ m →
      parser.parse_entries_go pe bytes entries cursor = .ok es →
      ∃ k, 1 ≤ k ∧ es.length = entries.length + k ∧
        bytes.length = cursor + 20 * k := by
  intro m
  induction m with
  | zero =>
    intro entries cursor es hm h
    rw [parser.parse_entries_go_eq, if_pos (by omega)] at h
    cases h
  | succ m ih =>
    intro entries cursor es hm h
    rw [parser.parse_entries_go_eq] at h
    by_cases hg : entries.length ≥ 25
    · rw [if_pos hg] at h
      cases h
    · rw [if_neg hg] at h
      cases hp : pe cursor bytes with
      | error e =>
        simp only [hp] at h
        cases h
      | ok pr =>
        obtain ⟨e, nc⟩ := pr
        obtain ⟨hnc, hle⟩ := hstep cursor e nc hp
        simp only [hp] at h
        split at h
        · rename_i hend
          cases h
          refine ⟨1, by omega, by simp, by omega⟩
        · rename_i hend
          obtain ⟨k, hk1, hklen, hkbytes⟩ :=
            ih (entries ++ [e]) nc es (by simp; omega) h
          refine ⟨k + 1, by omega, ?_, by omega⟩
          simp only [List.length_append, List.length_cons, List.length_nil] at hklen
          omega

theorem parser.parse_entries_length {T : Type}
    {pe : Nat → List Nat → Except ParseError (T × Nat)}
    {cursor : Nat} {bytes : List Nat} {es : List T}
    (h : parser.parse_entries pe cursor bytes = .ok es) : es.length ≤ 25 := by
  unfold parser.parse_entries at h
  split at h
  · cases h
  · exact parser.parse_entries_go_length 25 [] cursor es (by simp) h

theorem parser.parse_entries_error {T : Type}
    {pe : Nat → List Nat → Except ParseError (T × Nat)}
    {cursor : Nat} {bytes : List Nat} {err : ParseError}
    (hpe_err : ∀ (c : Nat) (e : ParseError),
      pe c bytes = .error e → e.isInvalidPacket = false)
    (h : parser.parse_entries pe cursor bytes = .error err) :
    err.isInvalidPacket = false := by
  unfold parser.parse_entries at h
  split at h
  · cases h
    rfl
  · exact parser.parse_entries_go_error hpe_err 25 [] cursor err (by simp) h

theorem Packet.make_v1_ok {h : header.Header} {es : List v1.Entry}
    (hv : h.version = version.Version.Version1) (hlen : es.length ≤ 25) :
    Packet.make_v1_packet h es = .ok ⟨h, es⟩ := by
  unfold Packet.make_v1_packet Packet.new
  rw [if_neg (by simp [hv]), if_neg (by omega)]

theorem Packet.make_v2_ok {h : header.Header} {es : List v2.Entry}
    (hv : h.version = version.Version.Version2) (hlen : es.length ≤ 25) :
    Packet.make_v2_packet h es = .ok ⟨h, es⟩ := by
  unfold Packet.make_v2_packet Packet.new
  rw [if_neg (by simp [hv]), if_neg (by omega)]

theorem Packet.make_v1_ok_inv {h : header.Header} {es : List v1.Entry}
    {p : Packet v1.Entry} (hp : Packet.make_v1_packet h es = .ok p) :
    p = ⟨h, es⟩ := by
  unfold Packet.make_v1_packet Packet.new at hp
  split at hp
  · cases hp
  · split at hp
    · cases hp
    · cases hp
      rfl

theorem Packet.make_v2_ok_inv {h : header.Header} {es : List v2.Entry}
    {p : Packet v2.Entry} (hp : Packet.make_v2_packet h es = .ok p) :
    p = ⟨h, es⟩ := by
  unfold Packet.make_v2_packet Packet.new at hp
  split at hp
  · cases hp
  · split at hp
    · cases hp
    · cases hp
      rfl

theorem parser.parse_entries_spec {T : Type}
    {pe : Nat → List Nat → Except ParseError (T × Nat)}
    {cursor : Nat} {bytes : List Nat} {es : List T}
    (hstep : ∀ (c : Nat) (e : T) (c' : Nat),
      pe c bytes = .ok (e, c') → c' = c + 20 ∧ c' ≤ bytes.length)
    (h : parser.parse_entries pe cursor bytes = .ok es) :
    1 ≤ es.length ∧ bytes.length = cursor + 20 * es.length := by
  unfold parser.parse_entries at h
  split at h
  · cases h
  · obtain ⟨k, hk1, hklen, hkb⟩ :=
      parser.parse_entries_go_spec hstep 25 [] cursor es (by simp) h
    simp only [List.length_nil, Nat.zero_add] at hklen
    omega

/-- Claim C9: whenever the entry loop succeeds it returns at most 25
entries, so the packet construction inside top-level `parse` (the
`.unwrap()` in the source) always succeeds: `parse` never returns an
`InvalidPacket` error, for any input buffer. -/
theorem parse_construction_infallible :
    (∀ (bytes : List Nat) (e : PacketError),
      parser.parse bytes ≠ .error (.InvalidPacket e)) ∧
    (∀ (bytes : List Nat) (c : Nat) (es : List v1.Entry),
      parser.parse_entries v1.parse_entry c bytes = .ok es → es.length ≤ 25) ∧
    (∀ (bytes : List Nat) (c : Nat) (es : List v2.Entry),
      parser.parse_entries v2.parse_entry c bytes = .ok es → es.length ≤ 25) := by
  refine ⟨?_, fun _ _ _ h => parser.parse_entries_length h,
    fun _ _ _ h => parser.parse_entries_length h⟩
  intro bytes e hcontra
  unfold parser.parse at hcontra
  split at hcontra
  · rename_i e' hhdr
    cases hcontra
    have := header.parse_error_header hhdr
    simp [ParseError.isInvalidPacket] at this
  · rename_i hdr cursor hhdr
    split at hcontra
    · rename_i hver
      split at hcontra
      · rename_i entries hpe
        have hlen := parser.parse_entries_length hpe
        simp only [Packet.make_v1_ok hver hlen] at hcontra
        cases hcontra
      · rename_i e' hpe
        cases hcontra
        have := parser.parse_entries_error
          (fun _ _ herr => v1.parse_entry_error_v1 herr) hpe
        simp [ParseError.isInvalidPacket] at this
    · rename_i hver
      split at hcontra
      · rename_i entries hpe
        have hlen := parser.parse_entries_length hpe
        simp only [Packet.make_v2_ok hver hlen] at hcontra
        cases hcontra
      · rename_i e' hpe
        cases hcontra
        have := parser.parse_entries_error
          (fun _ _ herr => v2.parse_entry_error_v2 herr) hpe
        simp [ParseError.isInvalidPacket] at this
    · simp at hcontra
    · simp at hcontra

theorem parse_construction_infallible_witness :
    parser.parse [2, 2, 0, 0] ≠ .error (.InvalidPacket .VersionInHeaderConflicted) ∧
    ([⟨address_family.Identifier.IP, ⟨192, 0, 2, 100⟩, 67305985⟩] : List v1.Entry).length
      ≤ 25 ∧
    ([⟨address_family.Identifier.IP, 258, ⟨192, 0, 2, 100⟩, ⟨255, 255, 255, 0⟩,
      ⟨192, 0, 2, 111⟩, 67305985⟩] : List v2.Entry).length ≤ 25 :=
  ⟨parse_construction_infallible.1 [2, 2, 0, 0] .VersionInHeaderConflicted,
   parse_construction_infallible.2.1
      [2, 1, 0, 0, 0, 2, 0, 0, 192, 0, 2, 100, 0, 0, 0, 0, 0, 0, 0, 0, 4, 3, 2, 1] 4
      [⟨address_family.Identifier.IP, ⟨192, 0, 2, 100⟩, 67305985⟩]
      (by
        unfold parser.parse_entries
        rw [if_neg (by decide)]
        rw [parser.parse_entries_go_eq]
        rfl),
   parse_construction_infallible.2.2
      [2, 2, 0, 0, 0, 2, 1, 2, 192, 0, 2, 100, 255, 255, 255, 0, 192, 0, 2, 111,
        4, 3, 2, 1] 4
      [⟨address_family.Identifier.IP, 258, ⟨192, 0, 2, 100⟩, ⟨255, 255, 255, 0⟩,
        ⟨192, 0, 2, 111⟩, 67305985⟩]
      (by
        unfold parser.parse_entries
        rw [if_neg (by decide)]
        rw [parser.parse_entries_go_eq]
        rfl)⟩

/-- Claim C10: a successful top-level `parse` on a buffer of length `L`
determines a `k` with `1 ≤ k ≤ 25`, `L = 4 + 20 * k`, and exactly `k`
parsed entries: every entry decode advances the cursor by exactly 20 and
the loop stops exactly at end-of-buffer, so leftover partial entries are
never accepted. -/
theorem parse_success_buffer_shape (bytes : List Nat) (env : parser.ParsedPacket)
    (h : parser.parse bytes = .ok env) :
    ∃ k, 1 ≤ k ∧ k ≤ 25 ∧ bytes.length = 4 + 20 * k ∧
      parser.ParsedPacket.numEntries env = k := by
  unfold parser.parse at h
  split at h
  · cases h
  · rename_i hdr cursor hhdr
    obtain ⟨hc, -⟩ := header.parse_ok_header hhdr
    subst hc
    split at h
    · rename_i hver
      split at h
      · rename_i entries hpe
        have hlen := parser.parse_entries_length hpe
        obtain ⟨h1, hshape⟩ := parser.parse_entries_spec
          (fun _ _ _ hok => v1.parse_entry_ok_v1 hok) hpe
        simp only [Packet.make_v1_ok hver hlen] at h
        cases h
        exact ⟨entries.length, h1, hlen, by omega, rfl⟩
      · cases h
    · rename_i hver
      split at h
      · rename_i entries hpe
        have hlen := parser.parse_entries_length hpe
        obtain ⟨h1, hshape⟩ := parser.parse_entries_spec
          (fun _ _ _ hok => v2.parse_entry_ok_v2 hok) hpe
        simp only [Packet.make_v2_ok hver hlen] at h
        cases h
        exact ⟨entries.length, h1, hlen, by omega, rfl⟩
      · cases h
    · cases h
    · cases h

theorem parse_success_buffer_shape_witness :
    ∃ k, 1 ≤ k ∧ k ≤ 25 ∧
      ([2, 1, 0, 0, 0, 2, 0, 0, 192, 0, 2, 100, 0, 0, 0, 0, 0, 0, 0, 0,
        4, 3, 2, 1] : List Nat).length = 4 + 20 * k ∧
      parser.ParsedPacket.numEntries
        (.V1 ⟨⟨command.Kind.Response, version.Version.Version1⟩,
          [⟨address_family.Identifier.IP, ⟨192, 0, 2, 100⟩, 67305985⟩]⟩) = k :=
  parse_success_buffer_shape
    [2, 1, 0, 0, 0, 2, 0, 0, 192, 0, 2, 100, 0, 0, 0, 0, 0, 0, 0, 0, 4, 3, 2, 1]
    (.V1 ⟨⟨command.Kind.Response, version.Version.Version1⟩,
      [⟨address_family.Identifier.IP, ⟨192, 0, 2, 100⟩, 67305985⟩]⟩)
    (by
      have hpe : parser.parse_entries v1.parse_entry 4
          [2, 1, 0, 0, 0, 2, 0, 0, 192, 0, 2, 100, 0, 0, 0, 0, 0, 0, 0, 0,
            4, 3, 2, 1] =
          .ok [⟨address_family.Identifier.IP, ⟨192, 0, 2, 100⟩, 67305985⟩] := by
        unfold parser.parse_entries
        rw [if_neg (by decide)]
        rw [parser.parse_entries_go_eq]
        rfl
      unfold parser.parse
      rw [show header.parse 0 [2, 1, 0, 0, 0, 2, 0, 0, 192, 0, 2, 100, 0, 0, 0, 0,
          0, 0, 0, 0, 4, 3, 2, 1] =
        .ok (⟨command.Kind.Response, version.Version.Version1⟩, 4) from rfl]
      simp only [hpe]
      rfl)

/-- Counterexample to claim C7 as stated: the buffer `[2,2,0,0]` has a
header that decodes with version `Version2 ≠ Version1`, yet `parse_v1`
fails with `EmptyRIPEntry 4`, not `InvalidPacket VersionInHeaderConflicted`:
the entry loop runs before the version check. -/
theorem parse_v1_version_check_counterexample :
    header.parse 0 [2, 2, 0, 0] =
      .ok (⟨command.Kind.Response, version.Version.Version2⟩, 4) ∧
    parser.parse_v1 [2, 2, 0, 0] = .error (.EmptyRIPEntry 4) ∧
    parser.parse_v1 [2, 2, 0, 0] ≠ .error (.InvalidPacket .VersionInHeaderConflicted) := by
  refine ⟨rfl, rfl, ?_⟩
  rw [show parser.parse_v1 [2, 2, 0, 0] = .error (.EmptyRIPEntry 4) from rfl]
  simp

/-- Claim C7 amended: when the header decodes with a version other than
`Version1` and the entry section itself parses under the v1 codec,
`parse_v1` fails with `InvalidPacket VersionInHeaderConflicted` (the
version requirement is enforced by packet construction after the entry
loop, not before it); symmetrically for `parse_v2` and `Version2`. -/
theorem parse_v1_v2_version_check :
    (∀ (bytes : List Nat) (h : header.Header) (c : Nat) (es : List v1.Entry),
      header.parse 0 bytes = .ok (h, c) →
      h.version ≠ version.Version.Version1 →
      parser.parse_entries v1.parse_entry c bytes = .ok es →
      parser.parse_v1 bytes = .error (.InvalidPacket .VersionInHeaderConflicted)) ∧
    (∀ (bytes : List Nat) (h : header.Header) (c : Nat) (es : List v2.Entry),
      header.parse 0 bytes = .ok (h, c) →
      h.version ≠ version.Version.Version2 →
      parser.parse_entries v2.parse_entry c bytes = .ok es →
      parser.parse_v2 bytes = .error (.InvalidPacket .VersionInHeaderConflicted)) := by
  constructor
  · intro bytes h c es hp hv hpe
    unfold parser.parse_v1
    rw [hp]
    simp only [hpe, Packet.make_v1_conflict hv]
  · intro bytes h c es hp hv hpe
    unfold parser.parse_v2
    rw [hp]
    simp only [hpe, Packet.make_v2_conflict hv]

theorem parse_v1_v2_version_check_witness :
    parser.parse_v1 [2, 2, 0, 0, 0, 2, 0, 0, 192, 0, 2, 100, 0, 0, 0, 0,
        0, 0, 0, 0, 4, 3, 2, 1] =
      .error (.InvalidPacket .VersionInHeaderConflicted) ∧
    parser.parse_v2 [2, 1, 0, 0, 0, 2, 0, 0, 192, 0, 2, 100, 255, 255, 255, 0,
        0, 0, 0, 0, 4, 3, 2, 1] =
      .error (.InvalidPacket .VersionInHeaderConflicted) :=
  ⟨parse_v1_v2_version_check.1
      [2, 2, 0, 0, 0, 2, 0, 0, 192, 0, 2, 100, 0, 0, 0, 0, 0, 0, 0, 0, 4, 3, 2, 1]
      ⟨command.Kind.Response, version.Version.Version2⟩ 4
      [⟨address_family.Identifier.IP, ⟨192, 0, 2, 100⟩, 67305985⟩] rfl (by decide)
      (by
        unfold parser.parse_entries
        rw [if_neg (by decide)]
        rw [parser.parse_entries_go_eq]
        rfl),
   parse_v1_v2_version_check.2
      [2, 1, 0, 0, 0, 2, 0, 0, 192, 0, 2, 100, 255, 255, 255, 0, 0, 0, 0, 0, 4, 3, 2, 1]
      ⟨command.Kind.Response, version.Version.Version1⟩ 4
      [⟨address_family.Identifier.IP, 0, ⟨192, 0, 2, 100⟩, ⟨255, 255, 255, 0⟩,
        ⟨0, 0, 0, 0⟩, 67305985⟩] rfl (by decide)
      (by
        unfold parser.parse_entries
        rw [if_neg (by decide)]
        rw [parser.parse_entries_go_eq]
        rfl)⟩

/-- Claim C2: the 24-byte example buffer parses to a V2 envelope holding
a Response/Version2 packet with the single expected entry (address
family IP, route tag 258, destination 192.0.2.100, mask 255.255.255.0,
next hop 192.0.2.111, metric 67305985), and serializing that packet
reproduces exactly the same bytes. -/
theorem parse_v2_single_entry_example :
    parser.parse [2, 2, 0, 0, 0, 2, 1, 2, 192, 0, 2, 100, 255, 255, 255, 0,
        192, 0, 2, 111, 4, 3, 2, 1] =
      .ok (.V2 ⟨⟨command.Kind.Response, version.Version.Version2⟩,
        [⟨address_family.Identifier.IP, 258, ⟨192, 0, 2, 100⟩, ⟨255, 255, 255, 0⟩,
          ⟨192, 0, 2, 111⟩, 67305985⟩]⟩) ∧
    serializer.serialize_v2_packet
        ⟨⟨command.Kind.Response, version.Version.Version2⟩,
          [⟨address_family.Identifier.IP, 258, ⟨192, 0, 2, 100⟩, ⟨255, 255, 255, 0⟩,
            ⟨192, 0, 2, 111⟩, 67305985⟩]⟩ =
      .ok [2, 2, 0, 0, 0, 2, 1, 2, 192, 0, 2, 100, 255, 255, 255, 0,
        192, 0, 2, 111, 4, 3, 2, 1] := by
  constructor
  · have hpe : parser.parse_entries v2.parse_entry 4
        [2, 2, 0, 0, 0, 2, 1, 2, 192, 0, 2, 100, 255, 255, 255, 0,
          192, 0, 2, 111, 4, 3, 2, 1] =
        .ok [⟨address_family.Identifier.IP, 258, ⟨192, 0, 2, 100⟩, ⟨255, 255, 255, 0⟩,
          ⟨192, 0, 2, 111⟩, 67305985⟩] := by
      unfold parser.parse_entries
      rw [if_neg (by decide)]
      rw [parser.parse_entries_go_eq]
      rfl
    unfold parser.parse
    rw [show header.parse 0 [2, 2, 0, 0, 0, 2, 1, 2, 192, 0, 2, 100, 255, 255, 255, 0,
        192, 0, 2, 111, 4, 3, 2, 1] =
      .ok (⟨command.Kind.Response, version.Version.Version2⟩, 4) from rfl]
    simp only [hpe]
    rfl
  · rfl

theorem make_packet_version_guard_witness :
    Packet.make_v1_packet ⟨command.Kind.Response, version.Version.Version2⟩ [] =
      .error .VersionInHeaderConflicted ∧
    Packet.make_v2_packet ⟨command.Kind.Response, version.Version.Version1⟩ [] =
      .error .VersionInHeaderConflicted :=
  ⟨make_packet_version_guard.1 ⟨command.Kind.Response, version.Version.Version2⟩ []
      (by decide),
   make_packet_version_guard.2.1 ⟨command.Kind.Response, version.Version.Version1⟩ []
      (by decide)⟩


/-! Machinery for the serialize-then-parse round-trip: byte-level
recombination of the big-endian fields, re-parsing of a serialized entry
at an arbitrary offset, and the loop/packet-level assembly. -/

theorem and_mask_shift (m k : Nat) : (m &&& (255 <<< k)) >>> k = m / 2 ^ k % 256 := by
  have h : (m &&& (255 <<< k)) >>> k = (m >>> k) &&& 255 := by
    apply Nat.eq_of_testBit_eq
    intro i
    rw [Nat.testBit_shiftRight, Nat.testBit_and, Nat.testBit_and, Nat.testBit_shiftRight,
      Nat.testBit_shiftLeft, show k + i - k = i by omega,
      decide_eq_true (show k + i ≥ k by omega), Bool.true_and]
  rw [h, show (255 : Nat) = 2 ^ 8 - 1 by norm_num, Nat.and_pow_two_sub_one_eq_mod,
    Nat.shiftRight_eq_div_pow]

theorem metric_recombine (m : Nat) (hm : m < 2 ^ 32) :
    ((m &&& 0xff000000) >>> 24) <<< 24 + ((m &&& 0x00ff0000) >>> 16) <<< 16 +
      ((m &&& 0x0000ff00) >>> 8) <<< 8 + (m &&& 0x000000ff) = m := by
  rw [show (0xff000000 : Nat) = 255 <<< 24 by norm_num [Nat.shiftLeft_eq],
    show (0x00ff0000 : Nat) = 255 <<< 16 by norm_num [Nat.shiftLeft_eq],
    show (0x0000ff00 : Nat) = 255 <<< 8 by norm_num [Nat.shiftLeft_eq]]
  rw [and_mask_shift, and_mask_shift, and_mask_shift]
  rw [show (0x000000ff : Nat) = 2 ^ 8 - 1 by norm_num, Nat.and_pow_two_sub_one_eq_mod]
  rw [Nat.shiftLeft_eq, Nat.shiftLeft_eq, Nat.shiftLeft_eq]
  omega

theorem route_tag_recombine (v : Nat) (hv : v < 2 ^ 16) :
    ((v &&& 0xff00) >>> 8) <<< 8 + (v &&& 0x00ff) = v := by
  rw [show (0xff00 : Nat) = 255 <<< 8 by norm_num [Nat.shiftLeft_eq]]
  rw [and_mask_shift]
  rw [show (0x00ff : Nat) = 2 ^ 8 - 1 by norm_num, Nat.and_pow_two_sub_one_eq_mod,
    Nat.shiftLeft_eq]
  omega

theorem zero_bytes.skip_of_zeros {bytes : List Nat} :
    ∀ (n c : Nat), (∀ j, j < n → bytes[c + j]? = some 0) →
      zero_bytes.skip n c bytes = .ok (c + n) := by
  intro n
  induction n with
  | zero => intro c h; rfl
  | succ m ih =>
    intro c h
    unfold zero_bytes.skip
    rw [byte_reader.read_of_getElem (by simpa using h 0 (by omega))]
    simp only [ne_eq, not_true_eq_false, if_false, ite_false]
    have hrec := ih (c + 1) (fun j hj => by
      simpa [Nat.add_assoc, Nat.add_comm 1 j] using h (j + 1) (by omega))
    rw [show c + 1 + m = c + (m + 1) from by omega] at hrec
    exact hrec

set_option maxRecDepth 10000 in
theorem v1.parse_entry_append_v1 (pre suf : List Nat)
    (afi : address_family.Identifier) (x y : Nat)
    (hser : address_family.Identifier.to_bytes afi = .ok [x, y])
    (o1 o2 o3 o4 m0 m1 m2 m3 : Nat) :
    v1.parse_entry pre.length
      (pre ++ x :: y :: 0 :: 0 :: o1 :: o2 :: o3 :: o4 ::
        0 :: 0 :: 0 :: 0 :: 0 :: 0 :: 0 :: 0 :: m0 :: m1 :: m2 :: m3 :: suf) =
      .ok (⟨afi, ⟨o1, o2, o3, o4⟩,
        (m0 <<< 24) + (m1 <<< 16) + (m2 <<< 8) + m3⟩, pre.length + 20) := by
  cases afi with
  | Unknown => cases hser
  | Unspecified =>
    rw [show address_family.Identifier.to_bytes address_family.Identifier.Unspecified =
      .ok [0, 0] from rfl] at hser
    have hxy := hser
    simp only [Except.ok.injEq, List.cons.injEq, and_true] at hxy
    obtain ⟨hx, hy⟩ := hxy
    subst hx
    subst hy
    set L := (0 : Nat) :: (0 : Nat) :: 0 :: 0 :: o1 :: o2 :: o3 :: o4 ::
        0 :: 0 :: 0 :: 0 :: 0 :: 0 :: 0 :: 0 :: m0 :: m1 :: m2 :: m3 :: suf with hL
    have hx0 : (pre ++ L)[pre.length]? = some (0 : Nat) := by
      rw [List.getElem?_append_right (Nat.le_refl _), show pre.length - pre.length = 0 by omega]
      simp [hL]
    have hx1 : (pre ++ L)[pre.length + 1]? = some (0 : Nat) := by
      rw [List.getElem?_append_right (by omega), show pre.length + 1 - pre.length = 1 by omega]
      simp [hL]
    have hz0 : (pre ++ L)[pre.length + 1 + 1]? = some (0 : Nat) := by
      rw [List.getElem?_append_right (by omega), show pre.length + 1 + 1 - pre.length = 2 by omega]
      simp [hL]
    have hz1 : (pre ++ L)[pre.length + 1 + 1 + 1]? = some (0 : Nat) := by
      rw [List.getElem?_append_right (by omega), show pre.length + 1 + 1 + 1 - pre.length = 3 by omega]
      simp [hL]
    have ho0 : (pre ++ L)[pre.length + 1 + 1 + 2]? = some o1 := by
      rw [List.getElem?_append_right (by omega), show pre.length + 1 + 1 + 2 - pre.length = 4 by omega]
      simp [hL]
    have ho1 : (pre ++ L)[pre.length + 1 + 1 + 2 + 1]? = some o2 := by
      rw [List.getElem?_append_right (by omega), show pre.length + 1 + 1 + 2 + 1 - pre.length = 5 by omega]
      simp [hL]
    have ho2 : (pre ++ L)[pre.length + 1 + 1 + 2 + 1 + 1]? = some o3 := by
      rw [List.getElem?_append_right (by omega), show pre.length + 1 + 1 + 2 + 1 + 1 - pre.length = 6 by omega]
      simp [hL]
    have ho3 : (pre ++ L)[pre.length + 1 + 1 + 2 + 1 + 1 + 1]? = some o4 := by
      rw [List.getElem?_append_right (by omega), show pre.length + 1 + 1 + 2 + 1 + 1 + 1 - pre.length = 7 by omega]
      simp [hL]
    have hw0 : (pre ++ L)[pre.length + 1 + 1 + 2 + 1 + 1 + 1 + 1]? = some (0 : Nat) := by
      rw [List.getElem?_append_right (by omega), show pre.length + 1 + 1 + 2 + 1 + 1 + 1 + 1 - pre.length = 8 by omega]
      simp [hL]
    have hw1 : (pre ++ L)[pre.length + 1 + 1 + 2 + 1 + 1 + 1 + 1 + 1]? = some (0 : Nat) := by
      rw [List.getElem?_append_right (by omega), show pre.length + 1 + 1 + 2 + 1 + 1 + 1 + 1 + 1 - pre.length = 9 by omega]
      simp [hL]
    have hw2 : (pre ++ L)[pre.length + 1 + 1 + 2 + 1 + 1 + 1 + 1 + 2]? = some (0 : Nat) := by
      rw [List.getElem?_append_right (by omega), show pre.length + 1 + 1 + 2 + 1 + 1 + 1 + 1 + 2 - pre.length = 10 by omega]
      simp [hL]
    have hw3 : (pre ++ L)[pre.length + 1 + 1 + 2 + 1 + 1 + 1 + 1 + 3]? = some (0 : Nat) := by
      rw [List.getElem?_append_right (by omega), show pre.length + 1 + 1 + 2 + 1 + 1 + 1 + 1 + 3 - pre.length = 11 by omega]
      simp [hL]
    have hw4 : (pre ++ L)[pre.length + 1 + 1 + 2 + 1 + 1 + 1 + 1 + 4]? = some (0 : Nat) := by
      rw [List.getElem?_append_right (by omega), show pre.length + 1 + 1 + 2 + 1 + 1 + 1 + 1 + 4 - pre.length = 12 by omega]
      simp [hL]
    have hw5 : (pre ++ L)[pre.length + 1 + 1 + 2 + 1 + 1 + 1 + 1 + 5]? = some (0 : Nat) := by
      rw [List.getElem?_append_right (by omega), show pre.length + 1 + 1 + 2 + 1 + 1 + 1 + 1 + 5 - pre.length = 13 by omega]
      simp [hL]
    have hw6 : (pre ++ L)[pre.length + 1 + 1 + 2 + 1 + 1 + 1 + 1 + 6]? = some (0 : Nat) := by
      rw [List.getElem?_append_right (by omega), show pre.length + 1 + 1 + 2 + 1 + 1 + 1 + 1 + 6 - pre.length = 14 by omega]
      simp [hL]
    have hw7 : (pre ++ L)[pre.length + 1 + 1 + 2 + 1 + 1 + 1 + 1 + 7]? = some (0 : Nat) := by
      rw [List.getElem?_append_right (by omega), show pre.length + 1 + 1 + 2 + 1 + 1 + 1 + 1 + 7 - pre.length = 15 by omega]
      simp [hL]
    have hm0 : (pre ++ L)[pre.length + 1 + 1 + 2 + 1 + 1 + 1 + 1 + 8]? = some m0 := by
      rw [List.getElem?_append_right (by omega), show pre.length + 1 + 1 + 2 + 1 + 1 + 1 + 1 + 8 - pre.length = 16 by omega]
      simp [hL]
    have hm1 : (pre ++ L)[pre.length + 1 + 1 + 2 + 1 + 1 + 1 + 1 + 8 + 1]? = some m1 := by
      rw [List.getElem?_append_right (by omega), show pre.length + 1 + 1 + 2 + 1 + 1 + 1 + 1 + 8 + 1 - pre.length = 17 by omega]
      simp [hL]
    have hm2 : (pre ++ L)[pre.length + 1 + 1 + 2 + 1 + 1 + 1 + 1 + 8 + 1 + 1]? = some m2 := by
      rw [List.getElem?_append_right (by omega), show pre.length + 1 + 1 + 2 + 1 + 1 + 1 + 1 + 8 + 1 + 1 - pre.length = 18 by omega]
      simp [hL]
    have hm3 : (pre ++ L)[pre.length + 1 + 1 + 2 + 1 + 1 + 1 + 1 + 8 + 1 + 1 + 1]? = some m3 := by
      rw [List.getElem?_append_right (by omega), show pre.length + 1 + 1 + 2 + 1 + 1 + 1 + 1 + 8 + 1 + 1 + 1 - pre.length = 19 by omega]
      simp [hL]
    have hs1 : zero_bytes.skip 2 (pre.length + 1 + 1) (pre ++ L) = .ok (pre.length + 1 + 1 + 2) :=
      zero_bytes.skip_of_zeros 2 (pre.length + 1 + 1) (by
        intro j hj
        interval_cases j
        · simpa using hz0
        · simpa using hz1)
    have hs2 : zero_bytes.skip 8 (pre.length + 1 + 1 + 2 + 1 + 1 + 1 + 1) (pre ++ L) = .ok (pre.length + 1 + 1 + 2 + 1 + 1 + 1 + 1 + 8) :=
      zero_bytes.skip_of_zeros 8 (pre.length + 1 + 1 + 2 + 1 + 1 + 1 + 1) (by
        intro j hj
        interval_cases j
        · simpa using hw0
        · simpa using hw1
        · simpa using hw2
        · simpa using hw3
        · simpa using hw4
        · simpa using hw5
        · simpa using hw6
        · simpa using hw7)
    simp only [v1.parse_entry, address_family.Identifier.parse, ipv4.parse, metric.parse,
      byte_reader.read_of_getElem hx0,
      byte_reader.read_of_getElem hx1,
      byte_reader.read_of_getElem ho0,
      byte_reader.read_of_getElem ho1,
      byte_reader.read_of_getElem ho2,
      byte_reader.read_of_getElem ho3,
      byte_reader.read_of_getElem hm0,
      byte_reader.read_of_getElem hm1,
      byte_reader.read_of_getElem hm2,
      byte_reader.read_of_getElem hm3,
      hs1, hs2,
      show ((0 : Nat) <<< 8) + 0 = 0 from by decide,
      show address_family.Identifier.from_u16 0 = address_family.Identifier.Unspecified from rfl]
  | IP =>
    rw [show address_family.Identifier.to_bytes address_family.Identifier.IP =
      .ok [0, 2] from rfl] at hser
    have hxy := hser
    simp only [Except.ok.injEq, List.cons.injEq, and_true] at hxy
    obtain ⟨hx, hy⟩ := hxy
    subst hx
    subst hy
    set L := (0 : Nat) :: (2 : Nat) :: 0 :: 0 :: o1 :: o2 :: o3 :: o4 ::
        0 :: 0 :: 0 :: 0 :: 0 :: 0 :: 0 :: 0 :: m0 :: m1 :: m2 :: m3 :: suf with hL
    have hx0 : (pre ++ L)[pre.length]? = some (0 : Nat) := by
      rw [List.getElem?_append_right (Nat.le_refl _), show pre.length - pre.length = 0 by omega]
      simp [hL]
    have hx1 : (pre ++ L)[pre.length + 1]? = some (2 : Nat) := by
      rw [List.getElem?_append_right (by omega), show pre.length + 1 - pre.length = 1 by omega]
      simp [hL]
    have hz0 : (pre ++ L)[pre.length + 1 + 1]? = some (0 : Nat) := by
      rw [List.getElem?_append_right (by omega), show pre.length + 1 + 1 - pre.length = 2 by omega]
      simp [hL]
    have hz1 : (pre ++ L)[pre.length + 1 + 1 + 1]? = some (0 : Nat) := by
      rw [List.getElem?_append_right (by omega), show pre.length + 1 + 1 + 1 - pre.length = 3 by omega]
      simp [hL]
    have ho0 : (pre ++ L)[pre.length + 1 + 1 + 2]? = some o1 := by
      rw [List.getElem?_append_right (by omega), show pre.length + 1 + 1 + 2 - pre.length = 4 by omega]
      simp [hL]
    have ho1 : (pre ++ L)[pre.length + 1 + 1 + 2 + 1]? = some o2 := by
      rw [List.getElem?_append_right (by omega), show pre.length + 1 + 1 + 2 + 1 - pre.length = 5 by omega]
      simp [hL]
    have ho2 : (pre ++ L)[pre.length + 1 + 1 + 2 + 1 + 1]? = some o3 := by
      rw [List.getElem?_append_right (by omega), show pre.length + 1 + 1 + 2 + 1 + 1 - pre.length = 6 by omega]
      simp [hL]
    have ho3 : (pre ++ L)[pre.length + 1 + 1 + 2 + 1 + 1 + 1]? = some o4 := by
      rw [List.getElem?_append_right (by omega), show pre.length + 1 + 1 + 2 + 1 + 1 + 1 - pre.length = 7 by omega]
      simp [hL]
    have hw0 : (pre ++ L)[pre.length + 1 + 1 + 2 + 1 + 1 + 1 + 1]? = some (0 : Nat) := by
      rw [List.getElem?_append_right (by omega), show pre.length + 1 + 1 + 2 + 1 + 1 + 1 + 1 - pre.length = 8 by omega]
      simp [hL]
    have hw1 : (pre ++ L)[pre.length + 1 + 1 + 2 + 1 + 1 + 1 + 1 + 1]? = some (0 : Nat) := by
      rw [List.getElem?_append_right (by omega), show pre.length + 1 + 1 + 2 + 1 + 1 + 1 + 1 + 1 - pre.length = 9 by omega]
      simp [hL]
    have hw2 : (pre ++ L)[pre.length + 1 + 1 + 2 + 1 + 1 + 1 + 1 + 2]? = some (0 : Nat) := by
      rw [List.getElem?_append_right (by omega), show pre.length + 1 + 1 + 2 + 1 + 1 + 1 + 1 + 2 - pre.length = 10 by omega]
      simp [hL]
    have hw3 : (pre ++ L)[pre.length + 1 + 1 + 2 + 1 + 1 + 1 + 1 + 3]? = some (0 : Nat) := by
      rw [List.getElem?_append_right (by omega), show pre.length + 1 + 1 + 2 + 1 + 1 + 1 + 1 + 3 - pre.length = 11 by omega]
      simp [hL]
    have hw4 : (pre ++ L)[pre.length + 1 + 1 + 2 + 1 + 1 + 1 + 1 + 4]? = some (0 : Nat) := by
      rw [List.getElem?_append_right (by omega), show pre.length + 1 + 1 + 2 + 1 + 1 + 1 + 1 + 4 - pre.length = 12 by omega]
      simp [hL]
    have hw5 : (pre ++ L)[pre.length + 1 + 1 + 2 + 1 + 1 + 1 + 1 + 5]? = some (0 : Nat) := by
      rw [List.getElem?_append_right (by omega), show pre.length + 1 + 1 + 2 + 1 + 1 + 1 + 1 + 5 - pre.length = 13 by omega]
      simp [hL]
    have hw6 : (pre ++ L)[pre.length + 1 + 1 + 2 + 1 + 1 + 1 + 1 + 6]? = some (0 : Nat) := by
      rw [List.getElem?_append_right (by omega), show pre.length + 1 + 1 + 2 + 1 + 1 + 1 + 1 + 6 - pre.length = 14 by omega]
      simp [hL]
    have hw7 : (pre ++ L)[pre.length + 1 + 1 + 2 + 1 + 1 + 1 + 1 + 7]? = some (0 : Nat) := by
      rw [List.getElem?_append_right (by omega), show pre.length + 1 + 1 + 2 + 1 + 1 + 1 + 1 + 7 - pre.length = 15 by omega]
      simp [hL]
    have hm0 : (pre ++ L)[pre.length + 1 + 1 + 2 + 1 + 1 + 1 + 1 + 8]? = some m0 := by
      rw [List.getElem?_append_right (by omega), show pre.length + 1 + 1 + 2 + 1 + 1 + 1 + 1 + 8 - pre.length = 16 by omega]
      simp [hL]
    have hm1 : (pre ++ L)[pre.length + 1 + 1 + 2 + 1 + 1 + 1 + 1 + 8 + 1]? = some m1 := by
      rw [List.getElem?_append_right (by omega), show pre.length + 1 + 1 + 2 + 1 + 1 + 1 + 1 + 8 + 1 - pre.length = 17 by omega]
      simp [hL]
    have hm2 : (pre ++ L)[pre.length + 1 + 1 + 2 + 1 + 1 + 1 + 1 + 8 + 1 + 1]? = some m2 := by
      rw [List.getElem?_append_right (by omega), show pre.length + 1 + 1 + 2 + 1 + 1 + 1 + 1 + 8 + 1 + 1 - pre.length = 18 by omega]
      simp [hL]
    have hm3 : (pre ++ L)[pre.length + 1 + 1 + 2 + 1 + 1 + 1 + 1 + 8 + 1 + 1 + 1]? = some m3 := by
      rw [List.getElem?_append_right (by omega), show pre.length + 1 + 1 + 2 + 1 + 1 + 1 + 1 + 8 + 1 + 1 + 1 - pre.length = 19 by omega]
      simp [hL]
    have hs1 : zero_bytes.skip 2 (pre.length + 1 + 1) (pre ++ L) = .ok (pre.length + 1 + 1 + 2) :=
      zero_bytes.skip_of_zeros 2 (pre.length + 1 + 1) (by
        intro j hj
        interval_cases j
        · simpa using hz0
        · simpa using hz1)
    have hs2 : zero_bytes.skip 8 (pre.length + 1 + 1 + 2 + 1 + 1 + 1 + 1) (pre ++ L) = .ok (pre.length + 1 + 1 + 2 + 1 + 1 + 1 + 1 + 8) :=
      zero_bytes.skip_of_zeros 8 (pre.length + 1 + 1 + 2 + 1 + 1 + 1 + 1) (by
        intro j hj
        interval_cases j
        · simpa using hw0
        · simpa using hw1
        · simpa using hw2
        · simpa using hw3
        · simpa using hw4
        · simpa using hw5
        · simpa using hw6
        · simpa using hw7)
    simp only [v1.parse_entry, address_family.Identifier.parse, ipv4.parse, metric.parse,
      byte_reader.read_of_getElem hx0,
      byte_reader.read_of_getElem hx1,
      byte_reader.read_of_getElem ho0,
      byte_reader.read_of_getElem ho1,
      byte_reader.read_of_getElem ho2,
      byte_reader.read_of_getElem ho3,
      byte_reader.read_of_getElem hm0,
      byte_reader.read_of_getElem hm1,
      byte_reader.read_of_getElem hm2,
      byte_reader.read_of_getElem hm3,
      hs1, hs2,
      show ((0 : Nat) <<< 8) + 2 = 2 from by decide,
      show address_family.Identifier.from_u16 2 = address_family.Identifier.IP from rfl]
  | AuthenticationPresent =>
    rw [show address_family.Identifier.to_bytes address_family.Identifier.AuthenticationPresent =
      .ok [255, 255] from rfl] at hser
    have hxy := hser
    simp only [Except.ok.injEq, List.cons.injEq, and_true] at hxy
    obtain ⟨hx, hy⟩ := hxy
    subst hx
    subst hy
    set L := (255 : Nat) :: (255 : Nat) :: 0 :: 0 :: o1 :: o2 :: o3 :: o4 ::
        0 :: 0 :: 0 :: 0 :: 0 :: 0 :: 0 :: 0 :: m0 :: m1 :: m2 :: m3 :: suf with hL
    have hx0 : (pre ++ L)[pre.length]? = some (255 : Nat) := by
      rw [List.getElem?_append_right (Nat.le_refl _), show pre.length - pre.length = 0 by omega]
      simp [hL]
    have hx1 : (pre ++ L)[pre.length + 1]? = some (255 : Nat) := by
      rw [List.getElem?_append_right (by omega), show pre.length + 1 - pre.length = 1 by omega]
      simp [hL]
    have hz0 : (pre ++ L)[pre.length + 1 + 1]? = some (0 : Nat) := by
      rw [List.getElem?_append_right (by omega), show pre.length + 1 + 1 - pre.length = 2 by omega]
      simp [hL]
    have hz1 : (pre ++ L)[pre.length + 1 + 1 + 1]? = some (0 : Nat) := by
      rw [List.getElem?_append_right (by omega), show pre.length + 1 + 1 + 1 - pre.length = 3 by omega]
      simp [hL]
    have ho0 : (pre ++ L)[pre.length + 1 + 1 + 2]? = some o1 := by
      rw [List.getElem?_append_right (by omega), show pre.length + 1 + 1 + 2 - pre.length = 4 by omega]
      simp [hL]
    have ho1 : (pre ++ L)[pre.length + 1 + 1 + 2 + 1]? = some o2 := by
      rw [List.getElem?_append_right (by omega), show pre.length + 1 + 1 + 2 + 1 - pre.length = 5 by omega]
      simp [hL]
    have ho2 : (pre ++ L)[pre.length + 1 + 1 + 2 + 1 + 1]? = some o3 := by
      rw [List.getElem?_append_right (by omega), show pre.length + 1 + 1 + 2 + 1 + 1 - pre.length = 6 by omega]
      simp [hL]
    have ho3 : (pre ++ L)[pre.length + 1 + 1 + 2 + 1 + 1 + 1]? = some o4 := by
      rw [List.getElem?_append_right (by omega), show pre.length + 1 + 1 + 2 + 1 + 1 + 1 - pre.length = 7 by omega]
      simp [hL]
    have hw0 : (pre ++ L)[pre.length + 1 + 1 + 2 + 1 + 1 + 1 + 1]? = some (0 : Nat) := by
      rw [List.getElem?_append_right (by omega), show pre.length + 1 + 1 + 2 + 1 + 1 + 1 + 1 - pre.length = 8 by omega]
      simp [hL]
    have hw1 : (pre ++ L)[pre.length + 1 + 1 + 2 + 1 + 1 + 1 + 1 + 1]? = some (0 : Nat) := by
      rw [List.getElem?_append_right (by omega), show pre.length + 1 + 1 + 2 + 1 + 1 + 1 + 1 + 1 - pre.length = 9 by omega]
      simp [hL]
    have hw2 : (pre ++ L)[pre.length + 1 + 1 + 2 + 1 + 1 + 1 + 1 + 2]? = some (0 : Nat) := by
      rw [List.getElem?_append_right (by omega), show pre.length + 1 + 1 + 2 + 1 + 1 + 1 + 1 + 2 - pre.length = 10 by omega]
      simp [hL]
    have hw3 : (pre ++ L)[pre.length + 1 + 1 + 2 + 1 + 1 + 1 + 1 + 3]? = some (0 : Nat) := by
      rw [List.getElem?_append_right (by omega), show pre.length + 1 + 1 + 2 + 1 + 1 + 1 + 1 + 3 - pre.length = 11 by omega]
      simp [hL]
    have hw4 : (pre ++ L)[pre.length + 1 + 1 + 2 + 1 + 1 + 1 + 1 + 4]? = some (0 : Nat) := by
      rw [List.getElem?_append_right (by omega), show pre.length + 1 + 1 + 2 + 1 + 1 + 1 + 1 + 4 - pre.length = 12 by omega]
      simp [hL]
    have hw5 : (pre ++ L)[pre.length + 1 + 1 + 2 + 1 + 1 + 1 + 1 + 5]? = some (0 : Nat) := by
      rw [List.getElem?_append_right (by omega), show pre.length + 1 + 1 + 2 + 1 + 1 + 1 + 1 + 5 - pre.length = 13 by omega]
      simp [hL]
    have hw6 : (pre ++ L)[pre.length + 1 + 1 + 2 + 1 + 1 + 1 + 1 + 6]? = some (0 : Nat) := by
      rw [List.getElem?_append_right (by omega), show pre.length + 1 + 1 + 2 + 1 + 1 + 1 + 1 + 6 - pre.length = 14 by omega]
      simp [hL]
    have hw7 : (pre ++ L)[pre.length + 1 + 1 + 2 + 1 + 1 + 1 + 1 + 7]? = some (0 : Nat) := by
      rw [List.getElem?_append_right (by omega), show pre.length + 1 + 1 + 2 + 1 + 1 + 1 + 1 + 7 - pre.length = 15 by omega]
      simp [hL]
    have hm0 : (pre ++ L)[pre.length + 1 + 1 + 2 + 1 + 1 + 1 + 1 + 8]? = some m0 := by
      rw [List.getElem?_append_right (by omega), show pre.length + 1 + 1 + 2 + 1 + 1 + 1 + 1 + 8 - pre.length = 16 by omega]
      simp [hL]
    have hm1 : (pre ++ L)[pre.length + 1 + 1 + 2 + 1 + 1 + 1 + 1 + 8 + 1]? = some m1 := by
      rw [List.getElem?_append_right (by omega), show pre.length + 1 + 1 + 2 + 1 + 1 + 1 + 1 + 8 + 1 - pre.length = 17 by omega]
      simp [hL]
    have hm2 : (pre ++ L)[pre.length + 1 + 1 + 2 + 1 + 1 + 1 + 1 + 8 + 1 + 1]? = some m2 := by
      rw [List.getElem?_append_right (by omega), show pre.length + 1 + 1 + 2 + 1 + 1 + 1 + 1 + 8 + 1 + 1 - pre.length = 18 by omega]
      simp [hL]
    have hm3 : (pre ++ L)[pre.length + 1 + 1 + 2 + 1 + 1 + 1 + 1 + 8 + 1 + 1 + 1]? = some m3 := by
      rw [List.getElem?_append_right (by omega), show pre.length + 1 + 1 + 2 + 1 + 1 + 1 + 1 + 8 + 1 + 1 + 1 - pre.length = 19 by omega]
      simp [hL]
    have hs1 : zero_bytes.skip 2 (pre.length + 1 + 1) (pre ++ L) = .ok (pre.length + 1 + 1 + 2) :=
      zero_bytes.skip_of_zeros 2 (pre.length + 1 + 1) (by
        intro j hj
        interval_cases j
        · simpa using hz0
        · simpa using hz1)
    have hs2 : zero_bytes.skip 8 (pre.length + 1 + 1 + 2 + 1 + 1 + 1 + 1) (pre ++ L) = .ok (pre.length + 1 + 1 + 2 + 1 + 1 + 1 + 1 + 8) :=
      zero_bytes.skip_of_zeros 8 (pre.length + 1 + 1 + 2 + 1 + 1 + 1 + 1) (by
        intro j hj
        interval_cases j
        · simpa using hw0
        · simpa using hw1
        · simpa using hw2
        · simpa using hw3
        · simpa using hw4
        · simpa using hw5
        · simpa using hw6
        · simpa using hw7)
    simp only [v1.parse_entry, address_family.Identifier.parse, ipv4.parse, metric.parse,
      byte_reader.read_of_getElem hx0,
      byte_reader.read_of_getElem hx1,
      byte_reader.read_of_getElem ho0,
      byte_reader.read_of_getElem ho1,
      byte_reader.read_of_getElem ho2,
      byte_reader.read_of_getElem ho3,
      byte_reader.read_of_getElem hm0,
      byte_reader.read_of_getElem hm1,
      byte_reader.read_of_getElem hm2,
      byte_reader.read_of_getElem hm3,
      hs1, hs2,
      show ((255 : Nat) <<< 8) + 255 = 65535 from by decide,
      show address_family.Identifier.from_u16 65535 = address_family.Identifier.AuthenticationPresent from rfl]

set_option maxRecDepth 10000 in
theorem v2.parse_entry_append_v2 (pre suf : List Nat)
    (afi : address_family.Identifier) (x y : Nat)
    (hser : address_family.Identifier.to_bytes afi = .ok [x, y])
    (rt0 rt1 o1 o2 o3 o4 s1 s2 s3 s4 n1 n2 n3 n4 m0 m1 m2 m3 : Nat) :
    v2.parse_entry pre.length
      (pre ++ x :: y :: rt0 :: rt1 :: o1 :: o2 :: o3 :: o4 :: s1 :: s2 :: s3 :: s4 ::
        n1 :: n2 :: n3 :: n4 :: m0 :: m1 :: m2 :: m3 :: suf) =
      .ok (⟨afi, (rt0 <<< 8) + rt1, ⟨o1, o2, o3, o4⟩, ⟨s1, s2, s3, s4⟩, ⟨n1, n2, n3, n4⟩,
        (m0 <<< 24) + (m1 <<< 16) + (m2 <<< 8) + m3⟩, pre.length + 20) := by
  cases afi with
  | Unknown => cases hser
  | Unspecified =>
    rw [show address_family.Identifier.to_bytes address_family.Identifier.Unspecified =
      .ok [0, 0] from rfl] at hser
    have hxy := hser
    simp only [Except.ok.injEq, List.cons.injEq, and_true] at hxy
    obtain ⟨hx, hy⟩ := hxy
    subst hx
    subst hy
    set L := (0 : Nat) :: (0 : Nat) :: rt0 :: rt1 :: o1 :: o2 :: o3 :: o4 :: s1 :: s2 :: s3 :: s4 ::
        n1 :: n2 :: n3 :: n4 :: m0 :: m1 :: m2 :: m3 :: suf with hL
    have h0 : (pre ++ L)[pre.length]? = some (0 : Nat) := by
      rw [List.getElem?_append_right (Nat.le_refl _), show pre.length - pre.length = 0 by omega]
      simp [hL]
    have h1 : (pre ++ L)[pre.length + 1]? = some (0 : Nat) := by
      rw [List.getElem?_append_right (by omega), show pre.length + 1 - pre.length = 1 by omega]
      simp [hL]
    have h2 : (pre ++ L)[pre.length + 1 + 1]? = some rt0 := by
      rw [List.getElem?_append_right (by omega), show pre.length + 1 + 1 - pre.length = 2 by omega]
      simp [hL]
    have h3 : (pre ++ L)[pre.length + 1 + 1 + 1]? = some rt1 := by
      rw [List.getElem?_append_right (by omega), show pre.length + 1 + 1 + 1 - pre.length = 3 by omega]
      simp [hL]
    have h4 : (pre ++ L)[pre.length + 1 + 1 + 1 + 1]? = some o1 := by
      rw [List.getElem?_append_right (by omega), show pre.length + 1 + 1 + 1 + 1 - pre.length = 4 by omega]
      simp [hL]
    have h5 : (pre ++ L)[pre.length + 1 + 1 + 1 + 1 + 1]? = some o2 := by
      rw [List.getElem?_append_right (by omega), show pre.length + 1 + 1 + 1 + 1 + 1 - pre.length = 5 by omega]
      simp [hL]
    have h6 : (pre ++ L)[pre.length + 1 + 1 + 1 + 1 + 1 + 1]? = some o3 := by
      rw [List.getElem?_append_right (by omega), show pre.length + 1 + 1 + 1 + 1 + 1 + 1 - pre.length = 6 by omega]
      simp [hL]
    have h7 : (pre ++ L)[pre.length + 1 + 1 + 1 + 1 + 1 + 1 + 1]? = some o4 := by
      rw [List.getElem?_append_right (by omega), show pre.length + 1 + 1 + 1 + 1 + 1 + 1 + 1 - pre.length = 7 by omega]
      simp [hL]
    have h8 : (pre ++ L)[pre.length + 1 + 1 + 1 + 1 + 1 + 1 + 1 + 1]? = some s1 := by
      rw [List.getElem?_append_right (by omega), show pre.length + 1 + 1 + 1 + 1 + 1 + 1 + 1 + 1 - pre.length = 8 by omega]
      simp [hL]
    have h9 : (pre ++ L)[pre.length + 1 + 1 + 1 + 1 + 1 + 1 + 1 + 1 + 1]? = some s2 := by
      rw [List.getElem?_append_right (by omega), show pre.length + 1 + 1 + 1 + 1 + 1 + 1 + 1 + 1 + 1 - pre.length = 9 by omega]
      simp [hL]
    have h10 : (pre ++ L)[pre.length + 1 + 1 + 1 + 1 + 1 + 1 + 1 + 1 + 1 + 1]? = some s3 := by
      rw [List.getElem?_append_right (by omega), show pre.length + 1 + 1 + 1 + 1 + 1 + 1 + 1 + 1 + 1 + 1 - pre.length = 10 by omega]
      simp [hL]
    have h11 : (pre ++ L)[pre.length + 1 + 1 + 1 + 1 + 1 + 1 + 1 + 1 + 1 + 1 + 1]? = some s4 := by
      rw [List.getElem?_append_right (by omega), show pre.length + 1 + 1 + 1 + 1 + 1 + 1 + 1 + 1 + 1 + 1 + 1 - pre.length = 11 by omega]
      simp [hL]
    have h12 : (pre ++ L)[pre.length + 1 + 1 + 1 + 1 + 1 + 1 + 1 + 1 + 1 + 1 + 1 + 1]? = some n1 := by
      rw [List.getElem?_append_right (by omega), show pre.length + 1 + 1 + 1 + 1 + 1 + 1 + 1 + 1 + 1 + 1 + 1 + 1 - pre.length = 12 by omega]
      simp [hL]
    have h13 : (pre ++ L)[pre.length + 1 + 1 + 1 + 1 + 1 + 1 + 1 + 1 + 1 + 1 + 1 + 1 + 1]? = some n2 := by
      rw [List.getElem?_append_right (by omega), show pre.length + 1 + 1 + 1 + 1 + 1 + 1 + 1 + 1 + 1 + 1 + 1 + 1 + 1 - pre.length = 13 by omega]
      simp [hL]
    have h14 : (pre ++ L)[pre.length + 1 + 1 + 1 + 1 + 1 + 1 + 1 + 1 + 1 + 1 + 1 + 1 + 1 + 1]? = some n3 := by
      rw [List.getElem?_append_right (by omega), show pre.length + 1 + 1 + 1 + 1 + 1 + 1 + 1 + 1 + 1 + 1 + 1 + 1 + 1 + 1 - pre.length = 14 by omega]
      simp [hL]
    have h15 : (pre ++ L)[pre.length + 1 + 1 + 1 + 1 + 1 + 1 + 1 + 1 + 1 + 1 + 1 + 1 + 1 + 1 + 1]? = some n4 := by
      rw [List.getElem?_append_right (by omega), show pre.length + 1 + 1 + 1 + 1 + 1 + 1 + 1 + 1 + 1 + 1 + 1 + 1 + 1 + 1 + 1 - pre.length = 15 by omega]
      simp [hL]
    have h16 : (pre ++ L)[pre.length + 1 + 1 + 1 + 1 + 1 + 1 + 1 + 1 + 1 + 1 + 1 + 1 + 1 + 1 + 1 + 1]? = some m0 := by
      rw [List.getElem?_append_right (by omega), show pre.length + 1 + 1 + 1 + 1 + 1 + 1 + 1 + 1 + 1 + 1 + 1 + 1 + 1 + 1 + 1 + 1 - pre.length = 16 by omega]
      simp [hL]
    have h17 : (pre ++ L)[pre.length + 1 + 1 + 1 + 1 + 1 + 1 + 1 + 1 + 1 + 1 + 1 + 1 + 1 + 1 + 1 + 1 + 1]? = some m1 := by
      rw [List.getElem?_append_right (by omega), show pre.length + 1 + 1 + 1 + 1 + 1 + 1 + 1 + 1 + 1 + 1 + 1 + 1 + 1 + 1 + 1 + 1 + 1 - pre.length = 17 by omega]
      simp [hL]
    have h18 : (pre ++ L)[pre.length + 1 + 1 + 1 + 1 + 1 + 1 + 1 + 1 + 1 + 1 + 1 + 1 + 1 + 1 + 1 + 1 + 1 + 1]? = some m2 := by
      rw [List.getElem?_append_right (by omega), show pre.length + 1 + 1 + 1 + 1 + 1 + 1 + 1 + 1 + 1 + 1 + 1 + 1 + 1 + 1 + 1 + 1 + 1 + 1 - pre.length = 18 by omega]
      simp [hL]
    have h19 : (pre ++ L)[pre.length + 1 + 1 + 1 + 1 + 1 + 1 + 1 + 1 + 1 + 1 + 1 + 1 + 1 + 1 + 1 + 1 + 1 + 1 + 1]? = some m3 := by
      rw [List.getElem?_append_right (by omega), show pre.length + 1 + 1 + 1 + 1 + 1 + 1 + 1 + 1 + 1 + 1 + 1 + 1 + 1 + 1 + 1 + 1 + 1 + 1 + 1 - pre.length = 19 by omega]
      simp [hL]
    simp only [v2.parse_entry, address_family.Identifier.parse, route_tag.parse, ipv4.parse,
      metric.parse,
      byte_reader.read_of_getElem h0,
      byte_reader.read_of_getElem h1,
      byte_reader.read_of_getElem h2,
      byte_reader.read_of_getElem h3,
      byte_reader.read_of_getElem h4,
      byte_reader.read_of_getElem h5,
      byte_reader.read_of_getElem h6,
      byte_reader.read_of_getElem h7,
      byte_reader.read_of_getElem h8,
      byte_reader.read_of_getElem h9,
      byte_reader.read_of_getElem h10,
      byte_reader.read_of_getElem h11,
      byte_reader.read_of_getElem h12,
      byte_reader.read_of_getElem h13,
      byte_reader.read_of_getElem h14,
      byte_reader.read_of_getElem h15,
      byte_reader.read_of_getElem h16,
      byte_reader.read_of_getElem h17,
      byte_reader.read_of_getElem h18,
      byte_reader.read_of_getElem h19,
      show ((0 : Nat) <<< 8) + 0 = 0 from by decide,
      show address_family.Identifier.from_u16 0 = address_family.Identifier.Unspecified from rfl]
  | IP =>
    rw [show address_family.Identifier.to_bytes address_family.Identifier.IP =
      .ok [0, 2] from rfl] at hser
    have hxy := hser
    simp only [Except.ok.injEq, List.cons.injEq, and_true] at hxy
    obtain ⟨hx, hy⟩ := hxy
    subst hx
    subst hy
    set L := (0 : Nat) :: (2 : Nat) :: rt0 :: rt1 :: o1 :: o2 :: o3 :: o4 :: s1 :: s2 :: s3 :: s4 ::
        n1 :: n2 :: n3 :: n4 :: m0 :: m1 :: m2 :: m3 :: suf with hL
    have h0 : (pre ++ L)[pre.length]? = some (0 : Nat) := by
      rw [List.getElem?_append_right (Nat.le_refl _), show pre.length - pre.length = 0 by omega]
      simp [hL]
    have h1 : (pre ++ L)[pre.length + 1]? = some (2 : Nat) := by
      rw [List.getElem?_append_right (by omega), show pre.length + 1 - pre.length = 1 by omega]
      simp [hL]
    have h2 : (pre ++ L)[pre.length + 1 + 1]? = some rt0 := by
      rw [List.getElem?_append_right (by omega), show pre.length + 1 + 1 - pre.length = 2 by omega]
      simp [hL]
    have h3 : (pre ++ L)[pre.length + 1 + 1 + 1]? = some rt1 := by
      rw [List.getElem?_append_right (by omega), show pre.length + 1 + 1 + 1 - pre.length = 3 by omega]
      simp [hL]
    have h4 : (pre ++ L)[pre.length + 1 + 1 + 1 + 1]? = some o1 := by
      rw [List.getElem?_append_right (by omega), show pre.length + 1 + 1 + 1 + 1 - pre.length = 4 by omega]
      simp [hL]
    have h5 : (pre ++ L)[pre.length + 1 + 1 + 1 + 1 + 1]? = some o2 := by
      rw [List.getElem?_append_right (by omega), show pre.length + 1 + 1 + 1 + 1 + 1 - pre.length = 5 by omega]
      simp [hL]
    have h6 : (pre ++ L)[pre.length + 1 + 1 + 1 + 1 + 1 + 1]? = some o3 := by
      rw [List.getElem?_append_right (by omega), show pre.length + 1 + 1 + 1 + 1 + 1 + 1 - pre.length = 6 by omega]
      simp [hL]
    have h7 : (pre ++ L)[pre.length + 1 + 1 + 1 + 1 + 1 + 1 + 1]? = some o4 := by
      rw [List.getElem?_append_right (by omega), show pre.length + 1 + 1 + 1 + 1 + 1 + 1 + 1 - pre.length = 7 by omega]
      simp [hL]
    have h8 : (pre ++ L)[pre.length + 1 + 1 + 1 + 1 + 1 + 1 + 1 + 1]? = some s1 := by
      rw [List.getElem?_append_right (by omega), show pre.length + 1 + 1 + 1 + 1 + 1 + 1 + 1 + 1 - pre.length = 8 by omega]
      simp [hL]
    have h9 : (pre ++ L)[pre.length + 1 + 1 + 1 + 1 + 1 + 1 + 1 + 1 + 1]? = some s2 := by
      rw [List.getElem?_append_right (by omega), show pre.length + 1 + 1 + 1 + 1 + 1 + 1 + 1 + 1 + 1 - pre.length = 9 by omega]
      simp [hL]
    have h10 : (pre ++ L)[pre.length + 1 + 1 + 1 + 1 + 1 + 1 + 1 + 1 + 1 + 1]? = some s3 := by
      rw [List.getElem?_append_right (by omega), show pre.length + 1 + 1 + 1 + 1 + 1 + 1 + 1 + 1 + 1 + 1 - pre.length = 10 by omega]
      simp [hL]
    have h11 : (pre ++ L)[pre.length + 1 + 1 + 1 + 1 + 1 + 1 + 1 + 1 + 1 + 1 + 1]? = some s4 := by
      rw [List.getElem?_append_right (by omega), show pre.length + 1 + 1 + 1 + 1 + 1 + 1 + 1 + 1 + 1 + 1 + 1 - pre.length = 11 by omega]
      simp [hL]
    have h12 : (pre ++ L)[pre.length + 1 + 1 + 1 + 1 + 1 + 1 + 1 + 1 + 1 + 1 + 1 + 1]? = some n1 := by
      rw [List.getElem?_append_right (by omega), show pre.length + 1 + 1 + 1 + 1 + 1 + 1 + 1 + 1 + 1 + 1 + 1 + 1 - pre.length = 12 by omega]
      simp [hL]
    have h13 : (pre ++ L)[pre.length + 1 + 1 + 1 + 1 + 1 + 1 + 1 + 1 + 1 + 1 + 1 + 1 + 1]? = some n2 := by
      rw [List.getElem?_append_right (by omega), show pre.length + 1 + 1 + 1 + 1 + 1 + 1 + 1 + 1 + 1 + 1 + 1 + 1 + 1 - pre.length = 13 by omega]
      simp [hL]
    have h14 : (pre ++ L)[pre.length + 1 + 1 + 1 + 1 + 1 + 1 + 1 + 1 + 1 + 1 + 1 + 1 + 1 + 1]? = some n3 := by
      rw [List.getElem?_append_right (by omega), show pre.length + 1 + 1 + 1 + 1 + 1 + 1 + 1 + 1 + 1 + 1 + 1 + 1 + 1 + 1 - pre.length = 14 by omega]
      simp [hL]
    have h15 : (pre ++ L)[pre.length + 1 + 1 + 1 + 1 + 1 + 1 + 1 + 1 + 1 + 1 + 1 + 1 + 1 + 1 + 1]? = some n4 := by
      rw [List.getElem?_append_right (by omega), show pre.length + 1 + 1 + 1 + 1 + 1 + 1 + 1 + 1 + 1 + 1 + 1 + 1 + 1 + 1 + 1 - pre.length = 15 by omega]
      simp [hL]
    have h16 : (pre ++ L)[pre.length + 1 + 1 + 1 + 1 + 1 + 1 + 1 + 1 + 1 + 1 + 1 + 1 + 1 + 1 + 1 + 1]? = some m0 := by
      rw [List.getElem?_append_right (by omega), show pre.length + 1 + 1 + 1 + 1 + 1 + 1 + 1 + 1 + 1 + 1 + 1 + 1 + 1 + 1 + 1 + 1 - pre.length = 16 by omega]
      simp [hL]
    have h17 : (pre ++ L)[pre.length + 1 + 1 + 1 + 1 + 1 + 1 + 1 + 1 + 1 + 1 + 1 + 1 + 1 + 1 + 1 + 1 + 1]? = some m1 := by
      rw [List.getElem?_append_right (by omega), show pre.length + 1 + 1 + 1 + 1 + 1 + 1 + 1 + 1 + 1 + 1 + 1 + 1 + 1 + 1 + 1 + 1 + 1 - pre.length = 17 by omega]
      simp [hL]
    have h18 : (pre ++ L)[pre.length + 1 + 1 + 1 + 1 + 1 + 1 + 1 + 1 + 1 + 1 + 1 + 1 + 1 + 1 + 1 + 1 + 1 + 1]? = some m2 := by
      rw [List.getElem?_append_right (by omega), show pre.length + 1 + 1 + 1 + 1 + 1 + 1 + 1 + 1 + 1 + 1 + 1 + 1 + 1 + 1 + 1 + 1 + 1 + 1 - pre.length = 18 by omega]
      simp [hL]
    have h19 : (pre ++ L)[pre.length + 1 + 1 + 1 + 1 + 1 + 1 + 1 + 1 + 1 + 1 + 1 + 1 + 1 + 1 + 1 + 1 + 1 + 1 + 1]? = some m3 := by
      rw [List.getElem?_append_right (by omega), show pre.length + 1 + 1 + 1 + 1 + 1 + 1 + 1 + 1 + 1 + 1 + 1 + 1 + 1 + 1 + 1 + 1 + 1 + 1 + 1 - pre.length = 19 by omega]
      simp [hL]
    simp only [v2.parse_entry, address_family.Identifier.parse, route_tag.parse, ipv4.parse,
      metric.parse,
      byte_reader.read_of_getElem h0,
      byte_reader.read_of_getElem h1,
      byte_reader.read_of_getElem h2,
      byte_reader.read_of_getElem h3,
      byte_reader.read_of_getElem h4,
      byte_reader.read_of_getElem h5,
      byte_reader.read_of_getElem h6,
      byte_reader.read_of_getElem h7,
      byte_reader.read_of_getElem h8,
      byte_reader.read_of_getElem h9,
      byte_reader.read_of_getElem h10,
      byte_reader.read_of_getElem h11,
      byte_reader.read_of_getElem h12,
      byte_reader.read_of_getElem h13,
      byte_reader.read_of_getElem h14,
      byte_reader.read_of_getElem h15,
      byte_reader.read_of_getElem h16,
      byte_reader.read_of_getElem h17,
      byte_reader.read_of_getElem h18,
      byte_reader.read_of_getElem h19,
      show ((0 : Nat) <<< 8) + 2 = 2 from by decide,
      show address_family.Identifier.from_u16 2 = address_family.Identifier.IP from rfl]
  | AuthenticationPresent =>
    rw [show address_family.Identifier.to_bytes address_family.Identifier.AuthenticationPresent =
      .ok [255, 255] from rfl] at hser
    have hxy := hser
    simp only [Except.ok.injEq, List.cons.injEq, and_true] at hxy
    obtain ⟨hx, hy⟩ := hxy
    subst hx
    subst hy
    set L := (255 : Nat) :: (255 : Nat) :: rt0 :: rt1 :: o1 :: o2 :: o3 :: o4 :: s1 :: s2 :: s3 :: s4 ::
        n1 :: n2 :: n3 :: n4 :: m0 :: m1 :: m2 :: m3 :: suf with hL
    have h0 : (pre ++ L)[pre.length]? = some (255 : Nat) := by
      rw [List.getElem?_append_right (Nat.le_refl _), show pre.length - pre.length = 0 by omega]
      simp [hL]
    have h1 : (pre ++ L)[pre.length + 1]? = some (255 : Nat) := by
      rw [List.getElem?_append_right (by omega), show pre.length + 1 - pre.length = 1 by omega]
      simp [hL]
    have h2 : (pre ++ L)[pre.length + 1 + 1]? = some rt0 := by
      rw [List.getElem?_append_right (by omega), show pre.length + 1 + 1 - pre.length = 2 by omega]
      simp [hL]
    have h3 : (pre ++ L)[pre.length + 1 + 1 + 1]? = some rt1 := by
      rw [List.getElem?_append_right (by omega), show pre.length + 1 + 1 + 1 - pre.length = 3 by omega]
      simp [hL]
    have h4 : (pre ++ L)[pre.length + 1 + 1 + 1 + 1]? = some o1 := by
      rw [List.getElem?_append_right (by omega), show pre.length + 1 + 1 + 1 + 1 - pre.length = 4 by omega]
      simp [hL]
    have h5 : (pre ++ L)[pre.length + 1 + 1 + 1 + 1 + 1]? = some o2 := by
      rw [List.getElem?_append_right (by omega), show pre.length + 1 + 1 + 1 + 1 + 1 - pre.length = 5 by omega]
      simp [hL]
    have h6 : (pre ++ L)[pre.length + 1 + 1 + 1 + 1 + 1 + 1]? = some o3 := by
      rw [List.getElem?_append_right (by omega), show pre.length + 1 + 1 + 1 + 1 + 1 + 1 - pre.length = 6 by omega]
      simp [hL]
    have h7 : (pre ++ L)[pre.length + 1 + 1 + 1 + 1 + 1 + 1 + 1]? = some o4 := by
      rw [List.getElem?_append_right (by omega), show pre.length + 1 + 1 + 1 + 1 + 1 + 1 + 1 - pre.length = 7 by omega]
      simp [hL]
    have h8 : (pre ++ L)[pre.length + 1 + 1 + 1 + 1 + 1 + 1 + 1 + 1]? = some s1 := by
      rw [List.getElem?_append_right (by omega), show pre.length + 1 + 1 + 1 + 1 + 1 + 1 + 1 + 1 - pre.length = 8 by omega]
      simp [hL]
    have h9 : (pre ++ L)[pre.length + 1 + 1 + 1 + 1 + 1 + 1 + 1 + 1 + 1]? = some s2 := by
      rw [List.getElem?_append_right (by omega), show pre.length + 1 + 1 + 1 + 1 + 1 + 1 + 1 + 1 + 1 - pre.length = 9 by omega]
      simp [hL]
    have h10 : (pre ++ L)[pre.length + 1 + 1 + 1 + 1 + 1 + 1 + 1 + 1 + 1 + 1]? = some s3 := by
      rw [List.getElem?_append_right (by omega), show pre.length + 1 + 1 + 1 + 1 + 1 + 1 + 1 + 1 + 1 + 1 - pre.length = 10 by omega]
      simp [hL]
    have h11 : (pre ++ L)[pre.length + 1 + 1 + 1 + 1 + 1 + 1 + 1 + 1 + 1 + 1 + 1]? = some s4 := by
      rw [List.getElem?_append_right (by omega), show pre.length + 1 + 1 + 1 + 1 + 1 + 1 + 1 + 1 + 1 + 1 + 1 - pre.length = 11 by omega]
      simp [hL]
    have h12 : (pre ++ L)[pre.length + 1 + 1 + 1 + 1 + 1 + 1 + 1 + 1 + 1 + 1 + 1 + 1]? = some n1 := by
      rw [List.getElem?_append_right (by omega), show pre.length + 1 + 1 + 1 + 1 + 1 + 1 + 1 + 1 + 1 + 1 + 1 + 1 - pre.length = 12 by omega]
      simp [hL]
    have h13 : (pre ++ L)[pre.length + 1 + 1 + 1 + 1 + 1 + 1 + 1 + 1 + 1 + 1 + 1 + 1 + 1]? = some n2 := by
      rw [List.getElem?_append_right (by omega), show pre.length + 1 + 1 + 1 + 1 + 1 + 1 + 1 + 1 + 1 + 1 + 1 + 1 + 1 - pre.length = 13 by omega]
      simp [hL]
    have h14 : (pre ++ L)[pre.length + 1 + 1 + 1 + 1 + 1 + 1 + 1 + 1 + 1 + 1 + 1 + 1 + 1 + 1]? = some n3 := by
      rw [List.getElem?_append_right (by omega), show pre.length + 1 + 1 + 1 + 1 + 1 + 1 + 1 + 1 + 1 + 1 + 1 + 1 + 1 + 1 - pre.length = 14 by omega]
      simp [hL]
    have h15 : (pre ++ L)[pre.length + 1 + 1 + 1 + 1 + 1 + 1 + 1 + 1 + 1 + 1 + 1 + 1 + 1 + 1 + 1]? = some n4 := by
      rw [List.getElem?_append_right (by omega), show pre.length + 1 + 1 + 1 + 1 + 1 + 1 + 1 + 1 + 1 + 1 + 1 + 1 + 1 + 1 + 1 - pre.length = 15 by omega]
      simp [hL]
    have h16 : (pre ++ L)[pre.length + 1 + 1 + 1 + 1 + 1 + 1 + 1 + 1 + 1 + 1 + 1 + 1 + 1 + 1 + 1 + 1]? = some m0 := by
      rw [List.getElem?_append_right (by omega), show pre.length + 1 + 1 + 1 + 1 + 1 + 1 + 1 + 1 + 1 + 1 + 1 + 1 + 1 + 1 + 1 + 1 - pre.length = 16 by omega]
      simp [hL]
    have h17 : (pre ++ L)[pre.length + 1 + 1 + 1 + 1 + 1 + 1 + 1 + 1 + 1 + 1 + 1 + 1 + 1 + 1 + 1 + 1 + 1]? = some m1 := by
      rw [List.getElem?_append_right (by omega), show pre.length + 1 + 1 + 1 + 1 + 1 + 1 + 1 + 1 + 1 + 1 + 1 + 1 + 1 + 1 + 1 + 1 + 1 - pre.length = 17 by omega]
      simp [hL]
    have h18 : (pre ++ L)[pre.length + 1 + 1 + 1 + 1 + 1 + 1 + 1 + 1 + 1 + 1 + 1 + 1 + 1 + 1 + 1 + 1 + 1 + 1]? = some m2 := by
      rw [List.getElem?_append_right (by omega), show pre.length + 1 + 1 + 1 + 1 + 1 + 1 + 1 + 1 + 1 + 1 + 1 + 1 + 1 + 1 + 1 + 1 + 1 + 1 - pre.length = 18 by omega]
      simp [hL]
    have h19 : (pre ++ L)[pre.length + 1 + 1 + 1 + 1 + 1 + 1 + 1 + 1 + 1 + 1 + 1 + 1 + 1 + 1 + 1 + 1 + 1 + 1 + 1]? = some m3 := by
      rw [List.getElem?_append_right (by omega), show pre.length + 1 + 1 + 1 + 1 + 1 + 1 + 1 + 1 + 1 + 1 + 1 + 1 + 1 + 1 + 1 + 1 + 1 + 1 + 1 - pre.length = 19 by omega]
      simp [hL]
    simp only [v2.parse_entry, address_family.Identifier.parse, route_tag.parse, ipv4.parse,
      metric.parse,
      byte_reader.read_of_getElem h0,
      byte_reader.read_of_getElem h1,
      byte_reader.read_of_getElem h2,
      byte_reader.read_of_getElem h3,
      byte_reader.read_of_getElem h4,
      byte_reader.read_of_getElem h5,
      byte_reader.read_of_getElem h6,
      byte_reader.read_of_getElem h7,
      byte_reader.read_of_getElem h8,
      byte_reader.read_of_getElem h9,
      byte_reader.read_of_getElem h10,
      byte_reader.read_of_getElem h11,
      byte_reader.read_of_getElem h12,
      byte_reader.read_of_getElem h13,
      byte_reader.read_of_getElem h14,
      byte_reader.read_of_getElem h15,
      byte_reader.read_of_getElem h16,
      byte_reader.read_of_getElem h17,
      byte_reader.read_of_getElem h18,
      byte_reader.read_of_getElem h19,
      show ((255 : Nat) <<< 8) + 255 = 65535 from by decide,
      show address_family.Identifier.from_u16 65535 = address_family.Identifier.AuthenticationPresent from rfl]

theorem v1.entry_ser_parse_v1 (e : v1.Entry)
    (hafi : e.address_family_identifier ≠ address_family.Identifier.Unknown)
    (hm : e.metric < 2 ^ 32) :
    ∃ eb, v1.Entry.to_bytes e = .ok eb ∧ eb.length = 20 ∧
      ∀ (pre suf : List Nat),
        v1.parse_entry pre.length (pre ++ (eb ++ suf)) = .ok (e, pre.length + 20) := by
  obtain ⟨afi, ⟨o1, o2, o3, o4⟩, m⟩ := e
  obtain ⟨x, y, hxy⟩ : ∃ x y, address_family.Identifier.to_bytes afi = .ok [x, y] := by
    cases afi
    · exact ⟨0, 0, rfl⟩
    · exact ⟨0, 2, rfl⟩
    · exact ⟨255, 255, rfl⟩
    · exact absurd rfl hafi
  refine ⟨[x, y, 0, 0, o1, o2, o3, o4, 0, 0, 0, 0, 0, 0, 0, 0,
    (m &&& 0xff000000) >>> 24, (m &&& 0x00ff0000) >>> 16, (m &&& 0x0000ff00) >>> 8,
    m &&& 0x000000ff], ?_, rfl, ?_⟩
  · unfold v1.Entry.to_bytes
    simp only [hxy, ipv4.to_bytes, metric.to_bytes]
    rfl
  · intro pre suf
    have hbase := v1.parse_entry_append_v1 pre suf afi x y hxy o1 o2 o3 o4
      ((m &&& 0xff000000) >>> 24) ((m &&& 0x00ff0000) >>> 16)
      ((m &&& 0x0000ff00) >>> 8) (m &&& 0x000000ff)
    rw [metric_recombine m hm] at hbase
    exact hbase

theorem v2.entry_ser_parse_v2 (e : v2.Entry)
    (hafi : e.address_family_identifier ≠ address_family.Identifier.Unknown)
    (hrt : e.route_tag < 2 ^ 16) (hm : e.metric < 2 ^ 32) :
    ∃ eb, v2.Entry.to_bytes e = .ok eb ∧ eb.length = 20 ∧
      ∀ (pre suf : List Nat),
        v2.parse_entry pre.length (pre ++ (eb ++ suf)) = .ok (e, pre.length + 20) := by
  obtain ⟨afi, rt, ⟨o1, o2, o3, o4⟩, ⟨s1, s2, s3, s4⟩, ⟨n1, n2, n3, n4⟩, m⟩ := e
  obtain ⟨x, y, hxy⟩ : ∃ x y, address_family.Identifier.to_bytes afi = .ok [x, y] := by
    cases afi
    · exact ⟨0, 0, rfl⟩
    · exact ⟨0, 2, rfl⟩
    · exact ⟨255, 255, rfl⟩
    · exact absurd rfl hafi
  refine ⟨[x, y, (rt &&& 0xff00) >>> 8, rt &&& 0x00ff, o1, o2, o3, o4, s1, s2, s3, s4,
    n1, n2, n3, n4,
    (m &&& 0xff000000) >>> 24, (m &&& 0x00ff0000) >>> 16, (m &&& 0x0000ff00) >>> 8,
    m &&& 0x000000ff], ?_, rfl, ?_⟩
  · unfold v2.Entry.to_bytes
    simp only [hxy, route_tag.to_bytes, ipv4.to_bytes, metric.to_bytes]
    rfl
  · intro pre suf
    have hbase := v2.parse_entry_append_v2 pre suf afi x y hxy
      ((rt &&& 0xff00) >>> 8) (rt &&& 0x00ff) o1 o2 o3 o4 s1 s2 s3 s4 n1 n2 n3 n4
      ((m &&& 0xff000000) >>> 24) ((m &&& 0x00ff0000) >>> 16)
      ((m &&& 0x0000ff00) >>> 8) (m &&& 0x000000ff)
    rw [metric_recombine m hm, route_tag_recombine rt hrt] at hbase
    exact hbase

theorem serializer.entries_to_bytes_spec {T : Type}
    {ser : T → Except SerializeError (List Nat)} :
    ∀ (es : List T), (∀ e ∈ es, ∃ eb, ser e = .ok eb ∧ eb.length = 20) →
      ∃ ebs, serializer.entries_to_bytes ser es = .ok ebs ∧
        ebs.length = 20 * es.length := by
  intro es
  induction es with
  | nil => exact fun _ => ⟨[], rfl, rfl⟩
  | cons e rest ih =>
    intro hgood
    obtain ⟨eb, heb, heblen⟩ := hgood e (by simp)
    obtain ⟨rbs, hrbs, hrbslen⟩ := ih (fun x hx => hgood x (by simp [hx]))
    refine ⟨eb ++ rbs, ?_, ?_⟩
    · unfold serializer.entries_to_bytes
      simp only [heb, hrbs]
    · simp only [List.length_append, List.length_cons]
      omega

theorem parser.parse_entries_go_roundtrip {T : Type}
    {pe : Nat → List Nat → Except ParseError (T × Nat)}
    {ser : T → Except SerializeError (List Nat)} :
    ∀ (rest acc : List T) (pre ebs : List Nat),
      (∀ e ∈ rest, ∃ eb, ser e = .ok eb ∧ eb.length = 20 ∧
        ∀ (p s : List Nat), pe p.length (p ++ (eb ++ s)) = .ok (e, p.length + 20)) →
      serializer.entries_to_bytes ser rest = .ok ebs →
      rest ≠ [] → acc.length + rest.length ≤ 25 →
      parser.parse_entries_go pe (pre ++ ebs) acc pre.length = .ok (acc ++ rest) := by
  intro rest
  induction rest with
  | nil => intro acc pre ebs _ _ hne _; exact absurd rfl hne
  | cons e rest ih =>
    intro acc pre ebs hgood hser hne hcount
    simp only [List.length_cons] at hcount
    obtain ⟨eb, hebser, heblen, hebparse⟩ := hgood e (by simp)
    unfold serializer.entries_to_bytes at hser
    simp only [hebser] at hser
    cases hrest : serializer.entries_to_bytes ser rest with
    | error err =>
      simp only [hrest] at hser
      cases hser
    | ok rbs =>
      simp only [hrest] at hser
      cases hser
      rw [parser.parse_entries_go_eq, if_neg (by omega)]
      simp only [hebparse pre rbs]
      by_cases hrnil : rest = []
      · subst hrnil
        have : rbs = [] := by
          simpa [serializer.entries_to_bytes] using hrest.symm
        subst this
        rw [if_pos (by simp [heblen])]
      · obtain ⟨rbs', hrbs', hrbslen⟩ :=
          serializer.entries_to_bytes_spec rest
            (fun x hx => by
              obtain ⟨xb, hxb, hxblen, -⟩ := hgood x (by simp [hx])
              exact ⟨xb, hxb, hxblen⟩)
        rw [hrest] at hrbs'
        cases hrbs'
        have hrestlen : 1 ≤ rest.length := by
          cases rest
          · exact absurd rfl hrnil
          · simp
        rw [if_neg (by
          simp only [List.length_append, heblen]
          omega)]
        have hrec := ih (acc ++ [e]) (pre ++ eb) rbs
          (fun x hx => hgood x (by simp [hx])) hrest hrnil
          (by simp; omega)
        simpa [List.append_assoc, List.length_append, heblen] using hrec

theorem Packet.make_v1_inversion {h : header.Header} {es : List v1.Entry}
    {p : Packet v1.Entry} (hp : Packet.make_v1_packet h es = .ok p) :
    p = ⟨h, es⟩ ∧ h.version = version.Version.Version1 ∧ es.length ≤ 25 := by
  unfold Packet.make_v1_packet Packet.new at hp
  split at hp
  · cases hp
  · rename_i hv
    split at hp
    · cases hp
    · rename_i hlen
      cases hp
      exact ⟨rfl, by simpa using hv, by omega⟩

theorem Packet.make_v2_inversion {h : header.Header} {es : List v2.Entry}
    {p : Packet v2.Entry} (hp : Packet.make_v2_packet h es = .ok p) :
    p = ⟨h, es⟩ ∧ h.version = version.Version.Version2 ∧ es.length ≤ 25 := by
  unfold Packet.make_v2_packet Packet.new at hp
  split at hp
  · cases hp
  · rename_i hv
    split at hp
    · cases hp
    · rename_i hlen
      cases hp
      exact ⟨rfl, by simpa using hv, by omega⟩

theorem command.Kind.to_u8_ok {k : command.Kind} (hk : k ≠ command.Kind.Unknown) :
    ∃ cb, command.Kind.to_u8 k = some cb := by
  cases k <;> first | exact absurd rfl hk | exact ⟨_, rfl⟩

theorem command.Kind.from_to_kind {k : command.Kind} {cb : Nat}
    (h : command.Kind.to_u8 k = some cb) : command.Kind.from_u8 cb = k := by
  cases k <;>
    first
    | (simp only [command.Kind.to_u8, Option.some.injEq] at h
       subst h
       rfl)
    | exact absurd h (by simp [command.Kind.to_u8])

theorem version.from_to_version {v : version.Version} {vb : Nat}
    (h : version.Version.to_u8 v = some vb) : version.Version.from_u8 vb = v := by
  cases v <;>
    first
    | (simp only [version.Version.to_u8, Option.some.injEq] at h
       subst h
       rfl)
    | exact absurd h (by simp [version.Version.to_u8])

theorem header.to_bytes_of {k : command.Kind} {v : version.Version} {cb vb : Nat}
    (hk : command.Kind.to_u8 k = some cb) (hv : version.Version.to_u8 v = some vb) :
    header.Header.to_bytes ⟨k, v⟩ = .ok [cb, vb, 0, 0] := by
  unfold header.Header.to_bytes command.Kind.to_bytes version.Version.to_bytes
  simp only [hk, hv]
  rfl

theorem header.parse_of_bytes {k : command.Kind} {v : version.Version} {cb vb : Nat}
    (hk : command.Kind.to_u8 k = some cb) (hkne : k ≠ command.Kind.Unknown)
    (hv : version.Version.to_u8 v = some vb) (rest : List Nat) :
    header.parse 0 (cb :: vb :: 0 :: 0 :: rest) = .ok (⟨k, v⟩, 4) := by
  have hkind : command.Kind.parse 0 (cb :: vb :: 0 :: 0 :: rest) = .ok (k, 0 + 1) := by
    simp only [command.Kind.parse,
      byte_reader.read_of_getElem
        (show (cb :: vb :: 0 :: 0 :: rest)[(0 : Nat)]? = some cb by simp),
      command.Kind.from_to_kind hk]
  have hskip : zero_bytes.skip 2 (0 + 1 + 1) (cb :: vb :: 0 :: 0 :: rest) =
      .ok (0 + 1 + 1 + 2) :=
    zero_bytes.skip_of_zeros 2 (0 + 1 + 1) (by
      intro j hj
      interval_cases j
      · simp
      · simp)
  simp only [header.parse, hkind,
    byte_reader.read_of_getElem
      (show (cb :: vb :: 0 :: 0 :: rest)[(0 : Nat) + 1]? = some vb by simp),
    hskip, version.from_to_version hv]

/-- Counterexample to claim C1 as stated: the empty-entry packet is
successfully constructed by `make_v1_packet` and serializes to the
header-only buffer `[2,1,0,0]`, but parsing that buffer fails with
`EmptyRIPEntry 4` instead of returning the packet, so
`parse (serialize p)` is not `envelope p` for every constructible `p`. -/
theorem packet_roundtrip_counterexample :
    Packet.make_v1_packet ⟨command.Kind.Response, version.Version.Version1⟩ [] =
      .ok ⟨⟨command.Kind.Response, version.Version.Version1⟩, []⟩ ∧
    serializer.serialize_v1_packet
        ⟨⟨command.Kind.Response, version.Version.Version1⟩, []⟩ = .ok [2, 1, 0, 0] ∧
    parser.parse [2, 1, 0, 0] = .error (.EmptyRIPEntry 4) :=
  ⟨rfl, rfl, rfl⟩

/-- Claim C1 amended: for every packet built by `make_v1_packet` or
`make_v2_packet` whose entry list is nonempty and whose command and
entry fields lie in the encodable Rust value domain (command not
`Unknown`, entries well-formed per `wf`), serialization succeeds and
parsing the produced bytes returns the matching version-tagged envelope
of the same packet. -/
theorem packet_roundtrip :
    (∀ (h : header.Header) (es : List v1.Entry) (p : Packet v1.Entry),
      Packet.make_v1_packet h es = .ok p →
      h.command ≠ command.Kind.Unknown → es ≠ [] → (∀ e ∈ es, v1.Entry.wf e) →
      ∃ bs, serializer.serialize_v1_packet p = .ok bs ∧
        parser.parse bs = .ok (.V1 p)) ∧
    (∀ (h : header.Header) (es : List v2.Entry) (p : Packet v2.Entry),
      Packet.make_v2_packet h es = .ok p →
      h.command ≠ command.Kind.Unknown → es ≠ [] → (∀ e ∈ es, v2.Entry.wf e) →
      ∃ bs, serializer.serialize_v2_packet p = .ok bs ∧
        parser.parse bs = .ok (.V2 p)) := by
  constructor
  · intro h es p hmk hcmd hne hwf
    obtain ⟨hpq, hver, hlen⟩ := Packet.make_v1_inversion hmk
    subst hpq
    obtain ⟨cmd, ver⟩ := h
    have hver' : ver = version.Version.Version1 := hver
    subst hver'
    have hcmd' : cmd ≠ command.Kind.Unknown := hcmd
    obtain ⟨cb, hcb⟩ := command.Kind.to_u8_ok hcmd'
    have hgood : ∀ e ∈ es, ∃ eb, v1.Entry.to_bytes e = .ok eb ∧ eb.length = 20 ∧
        ∀ (q s : List Nat),
          v1.parse_entry q.length (q ++ (eb ++ s)) = .ok (e, q.length + 20) :=
      fun e he => v1.entry_ser_parse_v1 e (hwf e he).1 (hwf e he).2.1
    obtain ⟨ebs, hebs, heblen⟩ := serializer.entries_to_bytes_spec es
      (fun e he => by
        obtain ⟨eb, h1, h2, -⟩ := hgood e he
        exact ⟨eb, h1, h2⟩)
    have heslen : 1 ≤ es.length := by
      cases es
      · exact absurd rfl hne
      · simp
    refine ⟨cb :: 1 :: 0 :: 0 :: ebs, ?_, ?_⟩
    · unfold serializer.serialize_v1_packet serializer.packet_to_bytes
      simp only [hebs, header.to_bytes_of hcb
        (show version.Version.to_u8 version.Version.Version1 = some 1 from rfl)]
      try rfl
    · have hpe : parser.parse_entries v1.parse_entry 4 (cb :: 1 :: 0 :: 0 :: ebs) =
          .ok es := by
        unfold parser.parse_entries
        rw [if_neg (by
          simp only [List.length_cons, heblen]
          omega)]
        have hgo := parser.parse_entries_go_roundtrip es [] [cb, 1, 0, 0] ebs
          hgood hebs hne (by simpa using hlen)
        simpa using hgo
      unfold parser.parse
      rw [header.parse_of_bytes hcb hcmd'
        (show version.Version.to_u8 version.Version.Version1 = some 1 from rfl) ebs]
      simp only [hpe,
        @Packet.make_v1_ok ⟨cmd, version.Version.Version1⟩ es rfl hlen]
  · intro h es p hmk hcmd hne hwf
    obtain ⟨hpq, hver, hlen⟩ := Packet.make_v2_inversion hmk
    subst hpq
    obtain ⟨cmd, ver⟩ := h
    have hver' : ver = version.Version.Version2 := hver
    subst hver'
    have hcmd' : cmd ≠ command.Kind.Unknown := hcmd
    obtain ⟨cb, hcb⟩ := command.Kind.to_u8_ok hcmd'
    have hgood : ∀ e ∈ es, ∃ eb, v2.Entry.to_bytes e = .ok eb ∧ eb.length = 20 ∧
        ∀ (q s : List Nat),
          v2.parse_entry q.length (q ++ (eb ++ s)) = .ok (e, q.length + 20) :=
      fun e he => v2.entry_ser_parse_v2 e (hwf e he).1 (hwf e he).2.1 (hwf e he).2.2.1
    obtain ⟨ebs, hebs, heblen⟩ := serializer.entries_to_bytes_spec es
      (fun e he => by
        obtain ⟨eb, h1, h2, -⟩ := hgood e he
        exact ⟨eb, h1, h2⟩)
    have heslen : 1 ≤ es.length := by
      cases es
      · exact absurd rfl hne
      · simp
    refine ⟨cb :: 2 :: 0 :: 0 :: ebs, ?_, ?_⟩
    · unfold serializer.serialize_v2_packet serializer.packet_to_bytes
      simp only [hebs, header.to_bytes_of hcb
        (show version.Version.to_u8 version.Version.Version2 = some 2 from rfl)]
      try rfl
    · have hpe : parser.parse_entries v2.parse_entry 4 (cb :: 2 :: 0 :: 0 :: ebs) =
          .ok es := by
        unfold parser.parse_entries
        rw [if_neg (by
          simp only [List.length_cons, heblen]
          omega)]
        have hgo := parser.parse_entries_go_roundtrip es [] [cb, 2, 0, 0] ebs
          hgood hebs hne (by simpa using hlen)
        simpa using hgo
      unfold parser.parse
      rw [header.parse_of_bytes hcb hcmd'
        (show version.Version.to_u8 version.Version.Version2 = some 2 from rfl) ebs]
      simp only [hpe,
        @Packet.make_v2_ok ⟨cmd, version.Version.Version2⟩ es rfl hlen]

theorem packet_roundtrip_witness :
    (∃ bs, serializer.serialize_v1_packet
        ⟨⟨command.Kind.Response, version.Version.Version1⟩,
          [⟨address_family.Identifier.IP, ⟨192, 0, 2, 100⟩, 67305985⟩]⟩ = .ok bs ∧
      parser.parse bs = .ok (.V1 ⟨⟨command.Kind.Response, version.Version.Version1⟩,
        [⟨address_family.Identifier.IP, ⟨192, 0, 2, 100⟩, 67305985⟩]⟩)) ∧
    (∃ bs, serializer.serialize_v2_packet
        ⟨⟨command.Kind.Response, version.Version.Version2⟩,
          [⟨address_family.Identifier.IP, 258, ⟨192, 0, 2, 100⟩, ⟨255, 255, 255, 0⟩,
            ⟨192, 0, 2, 111⟩, 67305985⟩]⟩ = .ok bs ∧
      parser.parse bs = .ok (.V2 ⟨⟨command.Kind.Response, version.Version.Version2⟩,
        [⟨address_family.Identifier.IP, 258, ⟨192, 0, 2, 100⟩, ⟨255, 255, 255, 0⟩,
          ⟨192, 0, 2, 111⟩, 67305985⟩]⟩)) :=
  ⟨packet_roundtrip.1 ⟨command.Kind.Response, version.Version.Version1⟩
      [⟨address_family.Identifier.IP, ⟨192, 0, 2, 100⟩, 67305985⟩]
      ⟨⟨command.Kind.Response, version.Version.Version1⟩,
        [⟨address_family.Identifier.IP, ⟨192, 0, 2, 100⟩, 67305985⟩]⟩
      rfl (by decide) (by decide)
      (by
        intro e he
        simp only [List.mem_singleton] at he
        subst he
        refine ⟨by decide, by decide, by decide, by decide, by decide, by decide⟩),
   packet_roundtrip.2 ⟨command.Kind.Response, version.Version.Version2⟩
      [⟨address_family.Identifier.IP, 258, ⟨192, 0, 2, 100⟩, ⟨255, 255, 255, 0⟩,
        ⟨192, 0, 2, 111⟩, 67305985⟩]
      ⟨⟨command.Kind.Response, version.Version.Version2⟩,
        [⟨address_family.Identifier.IP, 258, ⟨192, 0, 2, 100⟩, ⟨255, 255, 255, 0⟩,
          ⟨192, 0, 2, 111⟩, 67305985⟩]⟩
      rfl (by decide) (by decide)
      (by
        intro e he
        simp only [List.mem_singleton] at he
        subst he
        exact ⟨by decide, by decide, by decide, ⟨by decide, by decide, by decide, by decide⟩,
          ⟨by decide, by decide, by decide, by decide⟩,
          ⟨by decide, by decide, by decide, by decide⟩⟩)⟩

end Rip
